import Mathlib

/-!
Verification of the gw2-build-decoder library (TypeScript) against its
specification.  The binary codec (src/decoder.ts, src/encoder.ts,
src/binary-view.ts, src/constants.ts), the chat-link string layer and the
opt-in validator (validator.ts, validation-types.ts) are shallowly embedded
below: byte buffers are lists of naturals, the asynchronous fallible
palette-mapper and metadata-provider collaborators are functions into
`Except`/`Option`, and a decode/encode call is a total function returning
`Except CodecFailure`.
-/

namespace GW2

/-- Error codes from src/errors.ts (`BuildCodeErrorCode`). -/
inductive BuildCodeErrorCode
  | INVALID_LENGTH
  | INVALID_TYPE
  | INVALID_PROFESSION
  | PALETTE_LOOKUP_FAILED
  | BASE64_DECODE_FAILED
  deriving DecidableEq, Repr

/-- How a decode/encode call can fail.  `buildError` is a thrown
`BuildCodeError` (code plus optional wrapped cause), `uncaught` is a rejection
of the palette mapper that the code does not catch (it reaches the caller as
the raw cause, not as a `BuildCodeError`), and `rangeError` is the JavaScript
`RangeError` thrown by `DataView` reads past the buffer end or by
`Buffer.writeUIntNLE` for out-of-range values. -/
inductive CodecFailure (ε : Type)
  | rangeError
  | uncaught (cause : ε)
  | buildError (code : BuildCodeErrorCode) (cause : Option ε)
  deriving DecidableEq, Repr

/-- The external palette-mapping collaborator (src/types.ts `PaletteMapper`).
Both lookups are asynchronous and may fail; a failed promise is modelled as
`Except.error` carrying the rejection value. -/
structure PaletteMapper (ε : Type) where
  paletteToSkill : Nat → Nat → Except ε Nat
  skillToPalette : Nat → Nat → Except ε Nat

/-- The 10 named skill slots (src/types.ts `Skills`, v1.x layout). -/
structure Skills where
  heal : Nat
  utility1 : Nat
  utility2 : Nat
  utility3 : Nat
  elite : Nat
  aquaticHeal : Nat
  aquaticUtility1 : Nat
  aquaticUtility2 : Nat
  aquaticUtility3 : Nat
  aquaticElite : Nat
  deriving DecidableEq, Repr

/-- src/types.ts `Specialization`: id plus the three trait choices
(Adept, Master, Grandmaster), each 0-3. -/
structure Specialization where
  id : Nat
  traits : Nat × Nat × Nat
  deriving DecidableEq, Repr

/-- src/types.ts `ProfessionSpecificData` tagged union.  Revenant legends are
the 1- or 2-element list the decoder builds; `engineer` is the documented dead
variant that the decoder never produces. -/
inductive ProfessionSpecificData
  | ranger (pet1 pet2 : Nat)
  | revenant (legends : List Nat) (inactiveSkills : Option (Nat × Nat × Nat))
  | engineer (toolbeltSkills : Nat × Nat × Nat)
  deriving DecidableEq, Repr

/-- src/types.ts `BuildCode` (v1.x shape, with the optional extended-format
fields). -/
structure BuildCode where
  profession : Nat
  specializations : List Specialization
  skills : Skills
  professionSpecific : Option ProfessionSpecificData
  weapons : Option (List Nat)
  skillVariants : Option (List Nat)
  deriving DecidableEq, Repr

/-! ### Binary reads (src/binary-view.ts)

`BinaryView` wraps a `DataView` with a position; reads at a known absolute
position are embedded as indexed reads into the byte list.  An out-of-bounds
`DataView` access throws `RangeError`. -/

/-- `DataView.getUint8` at absolute index `i` (BinaryView.readByte/peekByte). -/
def byteAt {ε : Type} (buf : List Nat) (i : Nat) : Except (CodecFailure ε) Nat :=
  if i < buf.length then .ok (buf.getD i 0) else .error .rangeError

/-- `DataView.getUint16(pos, littleEndian)` (BinaryView.readUInt16LE). -/
def u16At {ε : Type} (buf : List Nat) (i : Nat) : Except (CodecFailure ε) Nat :=
  if i + 1 < buf.length then .ok (buf.getD i 0 + 256 * buf.getD (i + 1) 0)
  else .error .rangeError

/-- Modelled from the spec: `BinaryView.readUInt32LE` is called by the
decoder's trailer parsing (src/decoder.ts) and listed in the repository
changelog, but the method itself is missing from the binary-view.ts source in
src/.  The spec defines it as "readU32LE (4 bytes little-endian,
decode-trailer only)". -/
def u32At {ε : Type} (buf : List Nat) (i : Nat) : Except (CodecFailure ε) Nat :=
  if i + 3 < buf.length then
    .ok (buf.getD i 0 + 256 * buf.getD (i + 1) 0 + 65536 * buf.getD (i + 2) 0 +
      16777216 * buf.getD (i + 3) 0)
  else .error .rangeError

/-- Little-endian u16 value at byte offset `i`, reading missing bytes as 0.
Used in specification statements. -/
def u16d (buf : List Nat) (i : Nat) : Nat :=
  buf.getD i 0 + 256 * buf.getD (i + 1) 0

/-! ### Decoder (src/decoder.ts) -/

/-- One slot of `decodeSkills` (src/decoder.ts lines 221-235): a palette index
of 0 leaves the slot at 0 without consulting the mapper; a non-zero index is
resolved through `paletteToSkill`, and a mapper failure is wrapped into a
`BuildCodeError` of kind PALETTE_LOOKUP_FAILED. -/
def resolveSlot {ε : Type} (m : PaletteMapper ε) (profession idx : Nat) :
    Except (CodecFailure ε) Nat :=
  if idx = 0 then .ok 0
  else
    match m.paletteToSkill profession idx with
    | .ok v => .ok v
    | .error e => .error (.buildError .PALETTE_LOOKUP_FAILED (some e))

/-- `decodeSkills` (src/decoder.ts lines 188-238): ten sequential u16 reads
from `pos`, assigned to the slots in the order of the decoder's `skillKeys`
list: heal, aquaticHeal, utility1, utility2, utility3, aquaticUtility1,
aquaticUtility2, aquaticUtility3, elite, aquaticElite. -/
def decodeSkills {ε : Type} (buf : List Nat) (pos : Nat) (profession : Nat)
    (m : PaletteMapper ε) : Except (CodecFailure ε) Skills := do
  let i0 ← u16At buf pos
  let heal ← resolveSlot m profession i0
  let i1 ← u16At buf (pos + 2)
  let aquaticHeal ← resolveSlot m profession i1
  let i2 ← u16At buf (pos + 4)
  let utility1 ← resolveSlot m profession i2
  let i3 ← u16At buf (pos + 6)
  let utility2 ← resolveSlot m profession i3
  let i4 ← u16At buf (pos + 8)
  let utility3 ← resolveSlot m profession i4
  let i5 ← u16At buf (pos + 10)
  let aquaticUtility1 ← resolveSlot m profession i5
  let i6 ← u16At buf (pos + 12)
  let aquaticUtility2 ← resolveSlot m profession i6
  let i7 ← u16At buf (pos + 14)
  let aquaticUtility3 ← resolveSlot m profession i7
  let i8 ← u16At buf (pos + 16)
  let elite ← resolveSlot m profession i8
  let i9 ← u16At buf (pos + 18)
  let aquaticElite ← resolveSlot m profession i9
  pure { heal := heal, utility1 := utility1, utility2 := utility2,
         utility3 := utility3, elite := elite, aquaticHeal := aquaticHeal,
         aquaticUtility1 := aquaticUtility1, aquaticUtility2 := aquaticUtility2,
         aquaticUtility3 := aquaticUtility3, aquaticElite := aquaticElite }

/-- One specialization pair (src/decoder.ts lines 96-108): an id byte of 0
contributes nothing; otherwise the packed trait byte is split into 2-bit
fields (bits 0-1 Adept, 2-3 Master, 4-5 Grandmaster). -/
def specPair (specId traitMix : Nat) : List Specialization :=
  if specId = 0 then []
  else [{ id := specId, traits := (traitMix % 4, traitMix / 4 % 4, traitMix / 16 % 4) }]

/-- The three specialization pairs at bytes 2-7. -/
def readSpecs {ε : Type} (buf : List Nat) :
    Except (CodecFailure ε) (List Specialization) := do
  let s0 ← byteAt buf 2
  let t0 ← byteAt buf 3
  let s1 ← byteAt buf 4
  let t1 ← byteAt buf 5
  let s2 ← byteAt buf 6
  let t2 ← byteAt buf 7
  pure (specPair s0 t0 ++ specPair s1 t1 ++ specPair s2 t2)

/-- `decodeRangerData` (src/decoder.ts lines 359-376): two raw pet bytes at
28+offset; both zero means no profession-specific data. -/
def decodeRangerData {ε : Type} (buf : List Nat) (offset : Nat) :
    Except (CodecFailure ε) (Option ProfessionSpecificData) := do
  let pet1 ← byteAt buf (28 + offset)
  let pet2 ← byteAt buf (29 + offset)
  pure (if pet1 = 0 ∧ pet2 = 0 then none else some (.ranger pet1 pet2))

/-- A Revenant inactive-skill lookup (src/decoder.ts lines 324-326): the
mapper is called directly on the raw u16 — without the zero guard and without
the try/catch — so a rejection propagates uncaught. -/
def mapRaw {ε : Type} (m : PaletteMapper ε) (profession idx : Nat) :
    Except (CodecFailure ε) Nat :=
  match m.paletteToSkill profession idx with
  | .ok v => .ok v
  | .error e => .error (.uncaught e)

/-- Position of the first Revenant inactive-skill u16: the profession-specific
view sits at 28+offset after its skip, and the source slices it by
offset + 2 + revSkillOffset with revSkillOffset = offset ? 6 : 2
(src/decoder.ts lines 319-321). -/
def revAltBase (offset : Nat) : Nat :=
  28 + offset + (offset + 2 + (if offset ≠ 0 then 6 else 2))

/-- `decodeRevenant` (src/decoder.ts lines 243-354).  The two legend bytes sit
at 28+offset and 29+offset; both source branches over `legend1Byte` perform
the same ten skill reads with the same key order and profession 9 (they differ
only in the error-message text, which the embedding does not carry), so both
are the single `decodeSkills` call below.  When `legend2Byte` is non-zero the
three inactive u16s are read from 28+offset+(offset+2+revSkillOffset) and
mapped unguarded; a zero `legend1Byte` then triggers the flip. -/
def decodeRevenant {ε : Type} (buf : List Nat) (m : PaletteMapper ε)
    (offset : Nat) :
    Except (CodecFailure ε) (Skills × Option ProfessionSpecificData) := do
  let legend1Byte ← byteAt buf (28 + offset)
  let legend2Byte ← byteAt buf (29 + offset)
  let skills ← decodeSkills buf (8 + offset) 9 m
  if legend2Byte ≠ 0 then
    let r1 ← u16At buf (revAltBase offset)
    let a1 ← mapRaw m 9 r1
    let r2 ← u16At buf (revAltBase offset + 2)
    let a2 ← mapRaw m 9 r2
    let r3 ← u16At buf (revAltBase offset + 4)
    let a3 ← mapRaw m 9 r3
    if legend1Byte = 0 then
      pure ({ skills with
                utility1 := if a1 ≠ 0 then a1 else skills.utility1
                utility2 := if a2 ≠ 0 then a2 else skills.utility2
                utility3 := if a3 ≠ 0 then a3 else skills.utility3 },
            some (.revenant [legend2Byte]
              (some (skills.utility1, skills.utility2, skills.utility3))))
    else
      pure (skills,
            some (.revenant [legend1Byte, legend2Byte]
              (if a1 ≠ 0 ∨ a2 ≠ 0 ∨ a3 ≠ 0 then some (a1, a2, a3) else none)))
  else
    pure (skills, some (.revenant [legend1Byte] none))

/-- `weaponCount` consecutive u16 reads starting at `pos`. -/
def readU16s {ε : Type} (buf : List Nat) (pos : Nat) :
    Nat → Except (CodecFailure ε) (List Nat)
  | 0 => .ok []
  | n + 1 => do
    let v ← u16At buf pos
    let rest ← readU16s buf (pos + 2) n
    pure (v :: rest)

/-- `variantCount` consecutive u32 reads starting at `pos`. -/
def readU32s {ε : Type} (buf : List Nat) (pos : Nat) :
    Nat → Except (CodecFailure ε) (List Nat)
  | 0 => .ok []
  | n + 1 => do
    let v ← u32At buf pos
    let rest ← readU32s buf (pos + 4) n
    pure (v :: rest)

/-- Extended-trailer parsing (src/decoder.ts lines 148-169): from byte 44, a
weapon count byte and that many u16s, then a variant count byte and that many
u32s; a zero count leaves the corresponding output field absent. -/
def readExtended {ε : Type} (buf : List Nat) :
    Except (CodecFailure ε) (Option (List Nat) × Option (List Nat)) := do
  let weaponCount ← byteAt buf 44
  let ws ← readU16s buf 45 weaponCount
  let variantCount ← byteAt buf (45 + 2 * weaponCount)
  let vs ← readU32s buf (46 + 2 * weaponCount) variantCount
  pure ((if weaponCount = 0 then none else some ws),
        (if variantCount = 0 then none else some vs))

/-- `const offset = options.aquatic ? AQUATIC_OFFSET : 0` (src/decoder.ts
line 111, with AQUATIC_OFFSET = 2 from src/constants.ts). -/
def aquaticOffset (aquatic : Bool) : Nat := if aquatic then 2 else 0

/-- Profession dispatch for the skills and profession-specific regions
(src/decoder.ts lines 119-142). -/
def decodeProfessionData {ε : Type} (buf : List Nat) (m : PaletteMapper ε)
    (profession offset : Nat) :
    Except (CodecFailure ε) (Skills × Option ProfessionSpecificData) :=
  if profession = 9 then
    decodeRevenant buf m offset
  else
    decodeSkills buf (8 + offset) profession m >>= fun s =>
    (if profession = 4 then decodeRangerData buf offset
     else pure none) >>= fun ps =>
    pure (s, ps)

/-- `decode` on the base64-decoded buffer (src/decoder.ts lines 66-179):
length, type-indicator and profession validation, the three specialization
pairs, profession dispatch for skills and extras, then the optional trailer. -/
def decodeBuffer {ε : Type} (buf : List Nat) (m : PaletteMapper ε)
    (aquatic : Bool) : Except (CodecFailure ε) BuildCode :=
  if buf.length < 44 then .error (.buildError .INVALID_LENGTH none)
  else
    byteAt buf 0 >>= fun typeIndicator =>
    if typeIndicator ≠ 13 then .error (.buildError .INVALID_TYPE none)
    else
      byteAt buf 1 >>= fun profession =>
      if profession < 1 ∨ profession > 9 then
        .error (.buildError .INVALID_PROFESSION none)
      else
        readSpecs buf >>= fun specializations =>
        decodeProfessionData buf m profession (aquaticOffset aquatic) >>= fun sp =>
        (if 44 < buf.length then readExtended buf
         else pure (none, none)) >>= fun wv =>
        pure { profession := profession, specializations := specializations,
               skills := sp.1, professionSpecific := sp.2,
               weapons := wv.1, skillVariants := wv.2 }

/-! ### Chat-link string layer (src/decoder.ts lines 45-48, base64) -/

/-- Wrapper stripping (src/decoder.ts lines 45-48): an input starting with the
two characters `[&` has its first two characters and its final character
removed unconditionally (`chatLink.slice(2, -1)`); any other input is used
as-is. -/
def stripWrapper : List Char → List Char
  | c1 :: c2 :: rest =>
    if c1 = '[' ∧ c2 = '&' then rest.dropLast else c1 :: c2 :: rest
  | s => s

/-- The standard base64 alphabet. -/
def base64Alphabet : List Char :=
  "ABCDEFGHIJKLMNOPQRSTUVWXYZabcdefghijklmnopqrstuvwxyz0123456789+/".data

/-- Character of a 6-bit value. -/
def b64CharOf (v : Nat) : Char := base64Alphabet.getD v 'A'

/-- 6-bit value of a base64 character; `none` for characters outside the
alphabet (including padding), which `Buffer.from(s, 'base64')` skips. -/
def b64CharVal (c : Char) : Option Nat :=
  if 'A' ≤ c ∧ c ≤ 'Z' then some (c.toNat - 65)
  else if 'a' ≤ c ∧ c ≤ 'z' then some (c.toNat - 97 + 26)
  else if '0' ≤ c ∧ c ≤ '9' then some (c.toNat - 48 + 52)
  else if c = '+' then some 62
  else if c = '/' then some 63
  else none

/-- Reassemble bytes from a stream of 6-bit values (groups of four values give
three bytes; a final partial group gives the bytes its bits complete). -/
def b64Groups : List Nat → List Nat
  | a :: b :: c :: d :: rest =>
    (a * 4 + b / 16) :: (b % 16 * 16 + c / 4) :: (c % 4 * 64 + d) :: b64Groups rest
  | [a, b] => [a * 4 + b / 16]
  | [a, b, c] => [a * 4 + b / 16, b % 16 * 16 + c / 4]
  | _ => []

/-- `Buffer.from(s, 'base64')`: lenient base64 decode. -/
def b64Decode (s : List Char) : List Nat :=
  b64Groups (s.filterMap b64CharVal)

/-- `buffer.toString('base64')`: standard base64 encode with padding. -/
def b64EncodeChars : List Nat → List Char
  | x :: y :: z :: rest =>
    b64CharOf (x / 4) :: b64CharOf (x % 4 * 16 + y / 16) ::
      b64CharOf (y % 16 * 4 + z / 64) :: b64CharOf (z % 64) :: b64EncodeChars rest
  | [x, y] => [b64CharOf (x / 4), b64CharOf (x % 4 * 16 + y / 16),
               b64CharOf (y % 16 * 4), '=']
  | [x] => [b64CharOf (x / 4), b64CharOf (x % 4 * 16), '=', '=']
  | [] => []

/-- `decode` (src/decoder.ts lines 40-179): strip the optional wrapper,
base64-decode, then parse the buffer. -/
def decodeChatLink {ε : Type} (chatLink : String) (m : PaletteMapper ε)
    (aquatic : Bool) : Except (CodecFailure ε) BuildCode :=
  decodeBuffer (b64Decode (stripWrapper chatLink.data)) m aquatic

/-! ### Encoder (src/encoder.ts lines 32-207, the current version) -/

/-- Write a u16 little-endian; `Buffer.writeUInt16LE` throws a range error for
values above 0xffff. -/
def u16WriteBytes {ε : Type} (v : Nat) : Except (CodecFailure ε) (List Nat) :=
  if v < 65536 then .ok [v % 256, v / 256] else .error .rangeError

/-- Write a u32 little-endian; `Buffer.writeUInt32LE` throws a range error for
values above 0xffffffff. -/
def u32WriteBytes {ε : Type} (v : Nat) : Except (CodecFailure ε) (List Nat) :=
  if v < 4294967296 then
    .ok [v % 256, v / 256 % 256, v / 65536 % 256, v / 16777216 % 256]
  else .error .rangeError

/-- One skill slot on encode (src/encoder.ts lines 103-124): id 0 writes
palette 0 without consulting the mapper; otherwise `skillToPalette`, with
failures wrapped into PALETTE_LOOKUP_FAILED. -/
def encodeSlot {ε : Type} (m : PaletteMapper ε) (profession skillId : Nat) :
    Except (CodecFailure ε) Nat :=
  if skillId = 0 then .ok 0
  else
    match m.skillToPalette profession skillId with
    | .ok v => .ok v
    | .error e => .error (.buildError .PALETTE_LOOKUP_FAILED (some e))

/-- Map a slot and emit its two little-endian bytes. -/
def encodeSlotBytes {ε : Type} (m : PaletteMapper ε) (profession skillId : Nat) :
    Except (CodecFailure ε) (List Nat) := do
  let p ← encodeSlot m profession skillId
  u16WriteBytes p

/-- One wire specialization slot (src/encoder.ts lines 72-84): id byte plus
the packed trait byte, or (0,0) for an absent slot.  `buffer[pos] = v`
truncates to a byte. -/
def specSlotBytes (sp : Option Specialization) : List Nat :=
  match sp with
  | some s =>
    [s.id % 256, (s.traits.1 ||| (s.traits.2.1 <<< 2) ||| (s.traits.2.2 <<< 4)) % 256]
  | none => [0, 0]

/-- The 16-byte profession-specific region (src/encoder.ts lines 130-169);
the buffer is zero-initialised, so unwritten bytes are 0.  Engineer data is
never written. -/
def profSpecBytes {ε : Type} (m : PaletteMapper ε)
    (ps : Option ProfessionSpecificData) : Except (CodecFailure ε) (List Nat) :=
  match ps with
  | none => .ok (List.replicate 16 0)
  | some (.ranger pet1 pet2) =>
    .ok ([pet1 % 256, pet2 % 256] ++ List.replicate 14 0)
  | some (.engineer _) => .ok (List.replicate 16 0)
  | some (.revenant legends inactive) => do
    let l1 := legends.getD 0 0
    let l2 := legends.getD 1 0
    match inactive with
    | none => pure ([l1 % 256, l2 % 256] ++ List.replicate 14 0)
    | some (s1, s2, s3) => do
      let w1 ← encodeSlotBytes m 9 s1
      let w2 ← encodeSlotBytes m 9 s2
      let w3 ← encodeSlotBytes m 9 s3
      pure ([l1 % 256, l2 % 256, 0, 0] ++ w1 ++ w2 ++ w3 ++ List.replicate 6 0)

/-- Raw u16 writes for the weapon trailer. -/
def u16WriteList {ε : Type} : List Nat → Except (CodecFailure ε) (List Nat)
  | [] => .ok []
  | v :: rest => do
    let w ← u16WriteBytes v
    let ws ← u16WriteList rest
    pure (w ++ ws)

/-- Raw u32 writes for the skill-variant trailer. -/
def u32WriteList {ε : Type} : List Nat → Except (CodecFailure ε) (List Nat)
  | [] => .ok []
  | v :: rest => do
    let w ← u32WriteBytes v
    let ws ← u32WriteList rest
    pure (w ++ ws)

/-- `encode` down to the byte buffer (src/encoder.ts lines 32-199): header,
three padded specialization slots, the ten skill slots in the encoder's
interleaved order (heal, aquaticHeal, utility1, aquaticUtility1, utility2,
aquaticUtility2, utility3, aquaticUtility3, elite, aquaticElite), the
profession-specific region, and the trailer when either optional sequence is
non-empty. -/
def encodeBuffer {ε : Type} (b : BuildCode) (m : PaletteMapper ε) :
    Except (CodecFailure ε) (List Nat) := do
  let w0 ← encodeSlotBytes m b.profession b.skills.heal
  let w1 ← encodeSlotBytes m b.profession b.skills.aquaticHeal
  let w2 ← encodeSlotBytes m b.profession b.skills.utility1
  let w3 ← encodeSlotBytes m b.profession b.skills.aquaticUtility1
  let w4 ← encodeSlotBytes m b.profession b.skills.utility2
  let w5 ← encodeSlotBytes m b.profession b.skills.aquaticUtility2
  let w6 ← encodeSlotBytes m b.profession b.skills.utility3
  let w7 ← encodeSlotBytes m b.profession b.skills.aquaticUtility3
  let w8 ← encodeSlotBytes m b.profession b.skills.elite
  let w9 ← encodeSlotBytes m b.profession b.skills.aquaticElite
  let prof ← profSpecBytes m b.professionSpecific
  let wlen := (b.weapons.getD []).length
  let vlen := (b.skillVariants.getD []).length
  let tail ←
    if wlen ≠ 0 ∨ vlen ≠ 0 then do
      let wb ← u16WriteList (b.weapons.getD [])
      let vb ← u32WriteList (b.skillVariants.getD [])
      pure ([wlen % 256] ++ wb ++ [vlen % 256] ++ vb)
    else pure []
  pure ([13, b.profession % 256] ++
        specSlotBytes (b.specializations.get? 0) ++
        specSlotBytes (b.specializations.get? 1) ++
        specSlotBytes (b.specializations.get? 2) ++
        w0 ++ w1 ++ w2 ++ w3 ++ w4 ++ w5 ++ w6 ++ w7 ++ w8 ++ w9 ++
        prof ++ tail)

/-- `encode` (src/encoder.ts): byte buffer, base64, optional `[&...]`
wrapping (on by default). -/
def encodeChatLink {ε : Type} (b : BuildCode) (m : PaletteMapper ε)
    (wrapInChatLink : Bool) : Except (CodecFailure ε) String := do
  let bytes ← encodeBuffer b m
  let s := String.mk (b64EncodeChars bytes)
  pure (if wrapInChatLink then "[&" ++ s ++ "]" else s)

/-! ### Validator (validator.ts, validation-types.ts) -/

/-- validation-types.ts `ValidationErrorType`. -/
inductive ValidationErrorType
  | INVALID_SKILL_ID
  | INVALID_SPECIALIZATION_ID
  | SPECIALIZATION_NOT_FOR_PROFESSION
  | INVALID_PET_ID
  | INVALID_LEGEND_ID
  | SKILL_NOT_FOR_PROFESSION
  deriving DecidableEq, Repr

/-- validation-types.ts `ValidationWarningType`. -/
inductive ValidationWarningType
  | DEPRECATED_SKILL
  | SKILL_TYPE_MISMATCH
  | MISSING_ELITE_SPECIALIZATION
  deriving DecidableEq, Repr

/-- The `context` objects the validator attaches to its errors. -/
inductive ValidationContext
  | skill (skillId : Nat) (slot : String)
  | skillProfession (skillId : Nat) (skillName : String) (profession : String)
      (validProfessions : List String)
  | specialization (specializationId : Nat)
  | specializationProfession (specializationId : Nat)
      (specializationName : String) (expectedProfession : String)
      (actualProfession : String)
  | pet (petId : Nat) (petSlot : Nat)
  deriving DecidableEq, Repr

/-- validation-types.ts `ValidationError`. -/
structure ValidationError where
  type : ValidationErrorType
  message : String
  context : ValidationContext
  deriving DecidableEq, Repr

/-- validation-types.ts `ValidationWarning`. -/
structure ValidationWarning where
  type : ValidationWarningType
  message : String
  deriving DecidableEq, Repr

/-- validation-types.ts `ValidationResult`. -/
structure ValidationResult where
  valid : Bool
  errors : List ValidationError
  warnings : List ValidationWarning
  deriving DecidableEq, Repr

/-- validation-types.ts `SkillInfo` (the fields the validator reads). -/
structure SkillInfo where
  name : String
  professions : List String
  deriving DecidableEq, Repr

/-- validation-types.ts `SpecializationInfo` (the fields the validator
reads). -/
structure SpecializationInfo where
  name : String
  profession : String
  deriving DecidableEq, Repr

/-- validation-types.ts `PetInfo`. -/
structure PetInfo where
  id : Nat
  name : String
  deriving DecidableEq, Repr

/-- validator.ts `MetadataProvider`: asynchronous found-or-not lookups;
`getPetInfo` is an optional capability. -/
structure MetadataProvider where
  getSkillInfo : Nat → Option SkillInfo
  getSpecializationInfo : Nat → Option SpecializationInfo
  getPetInfo : Option (Nat → Option PetInfo)

/-- validator.ts `getProfessionName`. -/
def getProfessionName (profession : Nat) : String :=
  match profession with
  | 1 => "Guardian"
  | 2 => "Warrior"
  | 3 => "Engineer"
  | 4 => "Ranger"
  | 5 => "Thief"
  | 6 => "Elementalist"
  | 7 => "Mesmer"
  | 8 => "Necromancer"
  | 9 => "Revenant"
  | _ => "Unknown"

/-- One slot of `validateSkills` (validator.ts lines 121-148): empty slots are
skipped; a missing skill yields INVALID_SKILL_ID; a found skill whose
profession list lacks the build's profession yields
SKILL_NOT_FOR_PROFESSION. -/
def validateSkillSlot (mp : MetadataProvider) (professionName : String)
    (sid : Nat) (slot : String) : List ValidationError :=
  if sid = 0 then []
  else
    match mp.getSkillInfo sid with
    | none =>
      [{ type := .INVALID_SKILL_ID,
         message := s!"Skill ID {sid} does not exist in GW2 API",
         context := .skill sid slot }]
    | some info =>
      if professionName ∈ info.professions then []
      else
        let iname := info.name
        [{ type := .SKILL_NOT_FOR_PROFESSION,
           message := s!"Skill \"{iname}\" ({sid}) cannot be used by {professionName}",
           context := .skillProfession sid iname professionName info.professions }]

/-- `validateSkills` (validator.ts lines 99-151): all ten slots, terrestrial
then aquatic, errors concatenated. -/
def validateSkills (b : BuildCode) (mp : MetadataProvider) : List ValidationError :=
  let pn := getProfessionName b.profession
  validateSkillSlot mp pn b.skills.heal "heal" ++
  validateSkillSlot mp pn b.skills.utility1 "utility1" ++
  validateSkillSlot mp pn b.skills.utility2 "utility2" ++
  validateSkillSlot mp pn b.skills.utility3 "utility3" ++
  validateSkillSlot mp pn b.skills.elite "elite" ++
  validateSkillSlot mp pn b.skills.aquaticHeal "aquaticHeal" ++
  validateSkillSlot mp pn b.skills.aquaticUtility1 "aquaticUtility1" ++
  validateSkillSlot mp pn b.skills.aquaticUtility2 "aquaticUtility2" ++
  validateSkillSlot mp pn b.skills.aquaticUtility3 "aquaticUtility3" ++
  validateSkillSlot mp pn b.skills.aquaticElite "aquaticElite"

/-- One specialization check (validator.ts lines 162-188). -/
def validateSpec (mp : MetadataProvider) (professionName : String)
    (sp : Specialization) : List ValidationError :=
  let sid := sp.id
  match mp.getSpecializationInfo sid with
  | none =>
    [{ type := .INVALID_SPECIALIZATION_ID,
       message := s!"Specialization ID {sid} does not exist in GW2 API",
       context := .specialization sid }]
  | some info =>
    if info.profession = professionName then []
    else
      let iname := info.name
      let iprof := info.profession
      [{ type := .SPECIALIZATION_NOT_FOR_PROFESSION,
         message := s!"Specialization \"{iname}\" ({sid}) belongs to {iprof}, not {professionName}",
         context := .specializationProfession sid iname professionName iprof }]

/-- `validateSpecializations` (validator.ts lines 156-191). -/
def validateSpecializations (b : BuildCode) (mp : MetadataProvider) :
    List ValidationError :=
  (b.specializations.map (validateSpec mp (getProfessionName b.profession))).flatten

/-- One pet check (validator.ts lines 206-219). -/
def validatePetSlot (getPet : Nat → Option PetInfo) (petId petSlot : Nat) :
    List ValidationError :=
  if petId = 0 then []
  else
    match getPet petId with
    | none =>
      [{ type := .INVALID_PET_ID,
         message := s!"Pet ID {petId} does not exist in GW2 API",
         context := .pet petId petSlot }]
    | some _ => []

/-- `validatePets` (validator.ts lines 196-222): skipped entirely when the
provider lacks the capability. -/
def validatePets (mp : MetadataProvider) (pets : Nat × Nat) :
    List ValidationError :=
  match mp.getPetInfo with
  | none => []
  | some getPet => validatePetSlot getPet pets.1 0 ++ validatePetSlot getPet pets.2 1

/-- `BuildValidator.validate` (validator.ts lines 68-94): skill,
specialization and (Ranger) pet errors are accumulated; `valid` is the absence
of errors; warnings are never produced. -/
def validate (b : BuildCode) (mp : MetadataProvider) : ValidationResult :=
  let skillErrors := validateSkills b mp
  let specErrors := validateSpecializations b mp
  let petErrors :=
    match b.professionSpecific with
    | some (.ranger p1 p2) => validatePets mp (p1, p2)
    | _ => []
  let errors := skillErrors ++ specErrors ++ petErrors
  { valid := errors.isEmpty, errors := errors, warnings := [] }

instance {ε α : Type} [DecidableEq ε] [DecidableEq α] :
    DecidableEq (Except ε α)
  | .ok a, .ok b =>
    if h : a = b then .isTrue (by rw [h])
    else .isFalse (fun hc => h (Except.ok.inj hc))
  | .ok _, .error _ => .isFalse (fun hc => Except.noConfusion hc)
  | .error _, .ok _ => .isFalse (fun hc => Except.noConfusion hc)
  | .error e, .error f =>
    if h : e = f then .isTrue (by rw [h])
    else .isFalse (fun hc => h (Except.error.inj hc))

/-- Little-endian u32 value at byte offset `i`, reading missing bytes as 0.
Used in specification statements. -/
def u32d (buf : List Nat) (i : Nat) : Nat :=
  buf.getD i 0 + 256 * buf.getD (i + 1) 0 + 65536 * buf.getD (i + 2) 0 +
    16777216 * buf.getD (i + 3) 0

/-- The mapper resolves every lookup (never rejects). -/
def MapperTotal {ε : Type} (m : PaletteMapper ε) : Prop :=
  ∀ p i, ∃ v, m.paletteToSkill p i = Except.ok v

/-- The failures the stages after header validation can produce: an
out-of-bounds read, an uncaught mapper rejection, or a wrapped
PALETTE_LOOKUP_FAILED. -/
def PostHeaderFailure {ε : Type} (e : CodecFailure ε) : Prop :=
  e = .rangeError ∨ (∃ c, e = .uncaught c) ∨
    (∃ c, e = .buildError .PALETTE_LOOKUP_FAILED (some c))

/-- Failures of the plain skill path: an out-of-bounds read or a wrapped
PALETTE_LOOKUP_FAILED — never an uncaught mapper rejection. -/
def CaughtFailure {ε : Type} (e : CodecFailure ε) : Prop :=
  e = .rangeError ∨ ∃ c, e = .buildError .PALETTE_LOOKUP_FAILED (some c)

/-- The identity palette mapper: both directions total and mutually inverse.
Used to instantiate theorems at concrete inputs. -/
def idMapper : PaletteMapper Unit :=
  { paletteToSkill := fun _ i => .ok i, skillToPalette := fun _ i => .ok i }

/-- A mapper that rejects exactly palette index 0. -/
def strictMapper : PaletteMapper Unit :=
  { paletteToSkill := fun _ i => if i = 0 then .error () else .ok i,
    skillToPalette := fun _ i => .ok i }

/-- The all-zero skill record. -/
def zeroSkills : Skills :=
  { heal := 0, utility1 := 0, utility2 := 0, utility3 := 0, elite := 0,
    aquaticHeal := 0, aquaticUtility1 := 0, aquaticUtility2 := 0,
    aquaticUtility3 := 0, aquaticElite := 0 }

/-- A build with all 10 skill slots populated, used as the round-trip
failing input of C1. -/
def c1Build : BuildCode :=
  { profession := 1, specializations := [],
    skills := { heal := 1, utility1 := 2, utility2 := 3, utility3 := 4,
                elite := 5, aquaticHeal := 6, aquaticUtility1 := 7,
                aquaticUtility2 := 8, aquaticUtility3 := 9, aquaticElite := 10 },
    professionSpecific := none, weapons := none, skillVariants := none }

/-- The 44-byte buffer whose 4th skill byte-pair (bytes 14-15) holds palette
index 7 and whose other skill pairs are zero. -/
def c2Buf : List Nat :=
  [13, 1, 0, 0, 0, 0, 0, 0,
   0, 0, 0, 0, 0, 0, 7, 0, 0, 0, 0, 0, 0, 0, 0, 0, 0, 0, 0, 0] ++
  List.replicate 16 0

/-- The extended-format buffer of the C3 witness: one weapon (7) and one
skill variant (99) after the 44-byte base. -/
def c3Buf : List Nat :=
  [13, 1] ++ List.replicate 42 0 ++ [1, 7, 0, 1, 99, 0, 0, 0]

/-- The Revenant buffer of the C4 counterexample: legends (1, 2), all skill
pairs and inactive-skill pairs zero. -/
def c4Buf : List Nat :=
  [13, 9, 0, 0, 0, 0, 0, 0] ++ List.replicate 20 0 ++ [1, 2, 0, 0] ++
  List.replicate 12 0

/-- The Revenant flip buffer of the C5 witness: legend-slot-1 = 0,
legend-slot-2 = 5, inactive-skill pairs (1, 2, 3). -/
def c5Buf : List Nat :=
  [13, 9, 0, 0, 0, 0, 0, 0] ++ List.replicate 20 0 ++
  [0, 5, 0, 0, 1, 0, 2, 0, 3, 0] ++ List.replicate 6 0

/-- The decode result of `c5Buf`. -/
def c5Build : BuildCode :=
  { profession := 9, specializations := [],
    skills := { zeroSkills with utility1 := 1, utility2 := 2, utility3 := 3 },
    professionSpecific := some (.revenant [5] (some (0, 0, 0))),
    weapons := none, skillVariants := none }

/-- The build of the C8 scenario: one invalid skill ID (999) and one
specialization (50) that belongs to another profession. -/
def c8Build : BuildCode :=
  { profession := 1, specializations := [{ id := 50, traits := (1, 1, 2) }],
    skills := { heal := 999, utility1 := 0, utility2 := 0, utility3 := 0,
                elite := 0, aquaticHeal := 0, aquaticUtility1 := 0,
                aquaticUtility2 := 0, aquaticUtility3 := 0, aquaticElite := 0 },
    professionSpecific := none, weapons := none, skillVariants := none }

/-- The metadata provider of the C8 scenario: no skill 999, specialization 50
owned by Necromancer, no pet capability. -/
def c8Provider : MetadataProvider :=
  { getSkillInfo := fun _ => none,
    getSpecializationInfo := fun i =>
      if i = 50 then some { name := "Soul Reaping", profession := "Necromancer" }
      else none,
    getPetInfo := none }

/-! ### Helper lemmas on `Except` chains -/

theorem pure_eq_ok {ε α : Type} (a : α) : (pure a : Except ε α) = .ok a := rfl

theorem ok_bind {ε α β : Type} (a : α) (f : α → Except ε β) :
    (Except.ok a : Except ε α) >>= f = f a := rfl

theorem error_bind {ε α β : Type} (e : ε) (f : α → Except ε β) :
    (Except.error e : Except ε α) >>= f = Except.error e := rfl

theorem bind_ok_inv {ε α β : Type} {x : Except ε α} {f : α → Except ε β} {b : β}
    (h : x >>= f = .ok b) : ∃ a, x = .ok a ∧ f a = .ok b := by
  cases x with
  | ok a => exact ⟨a, rfl, h⟩
  | error e => exact Except.noConfusion h

theorem bind_error_inv {ε α β : Type} {x : Except ε α} {f : α → Except ε β}
    {e : ε} (h : x >>= f = .error e) :
    x = .error e ∨ ∃ a, x = .ok a ∧ f a = .error e := by
  cases x with
  | ok a => exact Or.inr ⟨a, rfl, h⟩
  | error e0 =>
    have he : e0 = e := Except.error.inj ((error_bind e0 f).symm.trans h)
    exact Or.inl (he ▸ rfl)

theorem byteAt_lt {ε : Type} {buf : List Nat} {i : Nat} (h : i < buf.length) :
    byteAt (ε := ε) buf i = .ok (buf.getD i 0) := by
  simp [byteAt, h]

theorem u16At_lt {ε : Type} {buf : List Nat} {i : Nat} (h : i + 1 < buf.length) :
    u16At (ε := ε) buf i = .ok (u16d buf i) := by
  simp [u16At, u16d, h]

theorem u32At_lt {ε : Type} {buf : List Nat} {i : Nat} (h : i + 3 < buf.length) :
    u32At (ε := ε) buf i = .ok (u32d buf i) := by
  simp [u32At, u32d, h]

theorem postHeader_ne_buildError {ε : Type} {e : CodecFailure ε}
    (hp : PostHeaderFailure e) {code : BuildCodeErrorCode} {c : Option ε}
    (hc : code ≠ .PALETTE_LOOKUP_FAILED) : e ≠ .buildError code c := by
  rcases hp with h | ⟨c0, h⟩ | ⟨c0, h⟩ <;> subst h <;> intro hcontra <;>
    first
      | exact CodecFailure.noConfusion hcontra
      | exact hc (CodecFailure.buildError.inj hcontra).1.symm

theorem byteAt_error_shape {ε : Type} {buf : List Nat} {i : Nat}
    {e : CodecFailure ε} (h : byteAt buf i = .error e) : e = .rangeError := by
  unfold byteAt at h
  split at h
  · exact Except.noConfusion h
  · exact (Except.error.inj h).symm

theorem u16At_error_shape {ε : Type} {buf : List Nat} {i : Nat}
    {e : CodecFailure ε} (h : u16At buf i = .error e) : e = .rangeError := by
  unfold u16At at h
  split at h
  · exact Except.noConfusion h
  · exact (Except.error.inj h).symm

theorem u32At_error_shape {ε : Type} {buf : List Nat} {i : Nat}
    {e : CodecFailure ε} (h : u32At buf i = .error e) : e = .rangeError := by
  unfold u32At at h
  split at h
  · exact Except.noConfusion h
  · exact (Except.error.inj h).symm

theorem byteAt_post {ε : Type} {buf : List Nat} {i : Nat} {e : CodecFailure ε}
    (h : byteAt buf i = .error e) : PostHeaderFailure e :=
  Or.inl (byteAt_error_shape h)

theorem u16At_post {ε : Type} {buf : List Nat} {i : Nat} {e : CodecFailure ε}
    (h : u16At buf i = .error e) : PostHeaderFailure e :=
  Or.inl (u16At_error_shape h)

theorem u32At_post {ε : Type} {buf : List Nat} {i : Nat} {e : CodecFailure ε}
    (h : u32At buf i = .error e) : PostHeaderFailure e :=
  Or.inl (u32At_error_shape h)

theorem resolveSlot_post {ε : Type} {m : PaletteMapper ε} {p i : Nat}
    {e : CodecFailure ε} (h : resolveSlot m p i = .error e) :
    PostHeaderFailure e := by
  unfold resolveSlot at h
  split at h
  · exact Except.noConfusion h
  · split at h
    · exact Except.noConfusion h
    · exact Or.inr (Or.inr ⟨_, (Except.error.inj h).symm⟩)

theorem mapRaw_post {ε : Type} {m : PaletteMapper ε} {p i : Nat}
    {e : CodecFailure ε} (h : mapRaw m p i = .error e) : PostHeaderFailure e := by
  unfold mapRaw at h
  split at h
  · exact Except.noConfusion h
  · exact Or.inr (Or.inl ⟨_, (Except.error.inj h).symm⟩)

theorem bind_post_inv {ε : Type} {α β : Type} {x : Except (CodecFailure ε) α}
    {f : α → Except (CodecFailure ε) β} {e : CodecFailure ε}
    (h : x >>= f = .error e)
    (hx : ∀ e0, x = .error e0 → PostHeaderFailure e0)
    (hf : ∀ a e0, f a = .error e0 → PostHeaderFailure e0) :
    PostHeaderFailure e := by
  rcases bind_error_inv h with h | ⟨a, _, h⟩
  · exact hx _ h
  · exact hf _ _ h

theorem decodeSkills_post {ε : Type} {buf : List Nat} {pos p : Nat}
    {m : PaletteMapper ε} {e : CodecFailure ε}
    (h : decodeSkills buf pos p m = .error e) : PostHeaderFailure e := by
  unfold decodeSkills at h
  refine bind_post_inv h (fun _ h => u16At_post h) (fun i0 e h => ?_)
  refine bind_post_inv h (fun _ h => resolveSlot_post h) (fun v0 e h => ?_)
  refine bind_post_inv h (fun _ h => u16At_post h) (fun i1 e h => ?_)
  refine bind_post_inv h (fun _ h => resolveSlot_post h) (fun v1 e h => ?_)
  refine bind_post_inv h (fun _ h => u16At_post h) (fun i2 e h => ?_)
  refine bind_post_inv h (fun _ h => resolveSlot_post h) (fun v2 e h => ?_)
  refine bind_post_inv h (fun _ h => u16At_post h) (fun i3 e h => ?_)
  refine bind_post_inv h (fun _ h => resolveSlot_post h) (fun v3 e h => ?_)
  refine bind_post_inv h (fun _ h => u16At_post h) (fun i4 e h => ?_)
  refine bind_post_inv h (fun _ h => resolveSlot_post h) (fun v4 e h => ?_)
  refine bind_post_inv h (fun _ h => u16At_post h) (fun i5 e h => ?_)
  refine bind_post_inv h (fun _ h => resolveSlot_post h) (fun v5 e h => ?_)
  refine bind_post_inv h (fun _ h => u16At_post h) (fun i6 e h => ?_)
  refine bind_post_inv h (fun _ h => resolveSlot_post h) (fun v6 e h => ?_)
  refine bind_post_inv h (fun _ h => u16At_post h) (fun i7 e h => ?_)
  refine bind_post_inv h (fun _ h => resolveSlot_post h) (fun v7 e h => ?_)
  refine bind_post_inv h (fun _ h => u16At_post h) (fun i8 e h => ?_)
  refine bind_post_inv h (fun _ h => resolveSlot_post h) (fun v8 e h => ?_)
  refine bind_post_inv h (fun _ h => u16At_post h) (fun i9 e h => ?_)
  refine bind_post_inv h (fun _ h => resolveSlot_post h) (fun v9 e h => ?_)
  exact Except.noConfusion h

theorem readSpecs_post {ε : Type} {buf : List Nat} {e : CodecFailure ε}
    (h : readSpecs buf = .error e) : PostHeaderFailure e := by
  unfold readSpecs at h
  refine bind_post_inv h (fun _ h => byteAt_post h) (fun s0 e h => ?_)
  refine bind_post_inv h (fun _ h => byteAt_post h) (fun t0 e h => ?_)
  refine bind_post_inv h (fun _ h => byteAt_post h) (fun s1 e h => ?_)
  refine bind_post_inv h (fun _ h => byteAt_post h) (fun t1 e h => ?_)
  refine bind_post_inv h (fun _ h => byteAt_post h) (fun s2 e h => ?_)
  refine bind_post_inv h (fun _ h => byteAt_post h) (fun t2 e h => ?_)
  exact Except.noConfusion h

theorem decodeRangerData_post {ε : Type} {buf : List Nat} {offset : Nat}
    {e : CodecFailure ε} (h : decodeRangerData buf offset = .error e) :
    PostHeaderFailure e := by
  unfold decodeRangerData at h
  refine bind_post_inv h (fun _ h => byteAt_post h) (fun p1 e h => ?_)
  refine bind_post_inv h (fun _ h => byteAt_post h) (fun p2 e h => ?_)
  exact Except.noConfusion h

theorem decodeRevenant_post {ε : Type} {buf : List Nat} {m : PaletteMapper ε}
    {offset : Nat} {e : CodecFailure ε}
    (h : decodeRevenant buf m offset = .error e) : PostHeaderFailure e := by
  unfold decodeRevenant at h
  refine bind_post_inv h (fun _ h => byteAt_post h) (fun l1 e h => ?_)
  refine bind_post_inv h (fun _ h => byteAt_post h) (fun l2 e h => ?_)
  refine bind_post_inv h (fun _ h => decodeSkills_post h) (fun sk e h => ?_)
  split at h
  · refine bind_post_inv h (fun _ h => u16At_post h) (fun r1 e h => ?_)
    refine bind_post_inv h (fun _ h => mapRaw_post h) (fun a1 e h => ?_)
    refine bind_post_inv h (fun _ h => u16At_post h) (fun r2 e h => ?_)
    refine bind_post_inv h (fun _ h => mapRaw_post h) (fun a2 e h => ?_)
    refine bind_post_inv h (fun _ h => u16At_post h) (fun r3 e h => ?_)
    refine bind_post_inv h (fun _ h => mapRaw_post h) (fun a3 e h => ?_)
    split at h
    · exact Except.noConfusion h
    · exact Except.noConfusion h
  · exact Except.noConfusion h

theorem readU16s_post {ε : Type} {buf : List Nat} :
    ∀ (n pos : Nat) {e : CodecFailure ε},
      readU16s buf pos n = .error e → PostHeaderFailure e := by
  intro n
  induction n with
  | zero => intro pos e h; exact Except.noConfusion h
  | succ k ih =>
    intro pos e h
    unfold readU16s at h
    refine bind_post_inv h (fun _ h => u16At_post h) (fun v e h => ?_)
    refine bind_post_inv h (fun _ h => ih _ h) (fun rest e h => ?_)
    exact Except.noConfusion h

theorem readU32s_post {ε : Type} {buf : List Nat} :
    ∀ (n pos : Nat) {e : CodecFailure ε},
      readU32s buf pos n = .error e → PostHeaderFailure e := by
  intro n
  induction n with
  | zero => intro pos e h; exact Except.noConfusion h
  | succ k ih =>
    intro pos e h
    unfold readU32s at h
    refine bind_post_inv h (fun _ h => u32At_post h) (fun v e h => ?_)
    refine bind_post_inv h (fun _ h => ih _ h) (fun rest e h => ?_)
    exact Except.noConfusion h

theorem readExtended_post {ε : Type} {buf : List Nat} {e : CodecFailure ε}
    (h : readExtended buf = .error e) : PostHeaderFailure e := by
  unfold readExtended at h
  refine bind_post_inv h (fun _ h => byteAt_post h) (fun wc e h => ?_)
  refine bind_post_inv h (fun _ h => readU16s_post _ _ h) (fun ws e h => ?_)
  refine bind_post_inv h (fun _ h => byteAt_post h) (fun vc e h => ?_)
  refine bind_post_inv h (fun _ h => readU32s_post _ _ h) (fun vs e h => ?_)
  exact Except.noConfusion h

theorem decodeProfessionData_post {ε : Type} {buf : List Nat}
    {m : PaletteMapper ε} {profession offset : Nat} {e : CodecFailure ε}
    (h : decodeProfessionData buf m profession offset = .error e) :
    PostHeaderFailure e := by
  unfold decodeProfessionData at h
  split at h
  · exact decodeRevenant_post h
  · refine bind_post_inv h (fun _ h => decodeSkills_post h) (fun s e h => ?_)
    refine bind_post_inv h (fun _ h => ?_) (fun ps e h => ?_)
    · split at h
      · exact decodeRangerData_post h
      · exact Except.noConfusion h
    · exact Except.noConfusion h

/-- Every failure of `decodeBuffer` on a buffer of sufficient length is the
INVALID_TYPE error (only when byte 0 is wrong), the INVALID_PROFESSION error
(only when byte 1 is out of range), or a failure of the later stages. -/
theorem decodeBuffer_error_cases {ε : Type} {buf : List Nat}
    {m : PaletteMapper ε} {aq : Bool} {e : CodecFailure ε}
    (hlen : 44 ≤ buf.length) (h : decodeBuffer buf m aq = .error e) :
    (e = .buildError .INVALID_TYPE none ∧ buf.getD 0 0 ≠ 13) ∨
    (e = .buildError .INVALID_PROFESSION none ∧
      (buf.getD 1 0 < 1 ∨ buf.getD 1 0 > 9)) ∨
    PostHeaderFailure e := by
  unfold decodeBuffer at h
  rw [if_neg (by omega)] at h
  rw [byteAt_lt (by omega), ok_bind] at h
  split at h
  · exact Or.inl ⟨(Except.error.inj h).symm, by assumption⟩
  · rw [byteAt_lt (by omega), ok_bind] at h
    split at h
    · exact Or.inr (Or.inl ⟨(Except.error.inj h).symm, by assumption⟩)
    · refine Or.inr (Or.inr ?_)
      refine bind_post_inv h (fun _ h => readSpecs_post h) (fun specs e h => ?_)
      refine bind_post_inv h (fun _ h => decodeProfessionData_post h)
        (fun sp e h => ?_)
      refine bind_post_inv h (fun _ h => ?_) (fun wv e h => ?_)
      · split at h
        · exact readExtended_post h
        · exact Except.noConfusion h
      · exact Except.noConfusion h

/-! ### Ok-direction machinery -/

theorem bind_ok_of {ε α β : Type} {x : Except ε α} {a : α}
    {f : α → Except ε β} (hx : x = .ok a) (hf : ∃ b, f a = .ok b) :
    ∃ b, x >>= f = .ok b := by
  obtain ⟨b, hb⟩ := hf
  exact ⟨b, by rw [hx, ok_bind]; exact hb⟩

theorem byteAt_ok_inv {ε : Type} {buf : List Nat} {i v : Nat}
    (h : byteAt (ε := ε) buf i = .ok v) : v = buf.getD i 0 := by
  unfold byteAt at h
  split at h
  · exact (Except.ok.inj h).symm
  · exact Except.noConfusion h

theorem u16At_ok_inv {ε : Type} {buf : List Nat} {i v : Nat}
    (h : u16At (ε := ε) buf i = .ok v) : v = u16d buf i := by
  unfold u16At at h
  split at h
  · exact (Except.ok.inj h).symm
  · exact Except.noConfusion h

theorem u32At_ok_inv {ε : Type} {buf : List Nat} {i v : Nat}
    (h : u32At (ε := ε) buf i = .ok v) :
    v = buf.getD i 0 + 256 * buf.getD (i + 1) 0 + 65536 * buf.getD (i + 2) 0 +
      16777216 * buf.getD (i + 3) 0 := by
  unfold u32At at h
  split at h
  · exact (Except.ok.inj h).symm
  · exact Except.noConfusion h

theorem resolveSlot_zero {ε : Type} (m : PaletteMapper ε) (p : Nat) :
    resolveSlot m p 0 = .ok 0 := by
  simp [resolveSlot]

theorem resolveSlot_ok_of {ε : Type} {m : PaletteMapper ε}
    (hm : MapperTotal m) (p i : Nat) : ∃ v, resolveSlot m p i = .ok v := by
  by_cases hi : i = 0
  · exact ⟨0, by rw [hi]; exact resolveSlot_zero m p⟩
  · obtain ⟨v, hv⟩ := hm p i
    exact ⟨v, by simp [resolveSlot, hi, hv]⟩

theorem mapRaw_ok_of {ε : Type} {m : PaletteMapper ε}
    (hm : MapperTotal m) (p i : Nat) : ∃ v, mapRaw m p i = .ok v := by
  obtain ⟨v, hv⟩ := hm p i
  exact ⟨v, by simp [mapRaw, hv]⟩

theorem decodeSkills_ok_of {ε : Type} (buf : List Nat) (pos p : Nat)
    {m : PaletteMapper ε} (hlen : pos + 19 < buf.length)
    (hm : MapperTotal m) : ∃ s, decodeSkills buf pos p m = .ok s := by
  obtain ⟨v0, h0⟩ := resolveSlot_ok_of hm p (u16d buf pos)
  obtain ⟨v1, h1⟩ := resolveSlot_ok_of hm p (u16d buf (pos + 2))
  obtain ⟨v2, h2⟩ := resolveSlot_ok_of hm p (u16d buf (pos + 4))
  obtain ⟨v3, h3⟩ := resolveSlot_ok_of hm p (u16d buf (pos + 6))
  obtain ⟨v4, h4⟩ := resolveSlot_ok_of hm p (u16d buf (pos + 8))
  obtain ⟨v5, h5⟩ := resolveSlot_ok_of hm p (u16d buf (pos + 10))
  obtain ⟨v6, h6⟩ := resolveSlot_ok_of hm p (u16d buf (pos + 12))
  obtain ⟨v7, h7⟩ := resolveSlot_ok_of hm p (u16d buf (pos + 14))
  obtain ⟨v8, h8⟩ := resolveSlot_ok_of hm p (u16d buf (pos + 16))
  obtain ⟨v9, h9⟩ := resolveSlot_ok_of hm p (u16d buf (pos + 18))
  refine ⟨{ heal := v0, aquaticHeal := v1, utility1 := v2, utility2 := v3,
            utility3 := v4, aquaticUtility1 := v5, aquaticUtility2 := v6,
            aquaticUtility3 := v7, elite := v8, aquaticElite := v9 }, ?_⟩
  simp only [decodeSkills,
    u16At_lt (show pos + 1 < buf.length by omega),
    u16At_lt (show pos + 2 + 1 < buf.length by omega),
    u16At_lt (show pos + 4 + 1 < buf.length by omega),
    u16At_lt (show pos + 6 + 1 < buf.length by omega),
    u16At_lt (show pos + 8 + 1 < buf.length by omega),
    u16At_lt (show pos + 10 + 1 < buf.length by omega),
    u16At_lt (show pos + 12 + 1 < buf.length by omega),
    u16At_lt (show pos + 14 + 1 < buf.length by omega),
    u16At_lt (show pos + 16 + 1 < buf.length by omega),
    u16At_lt (show pos + 18 + 1 < buf.length by omega),
    ok_bind, h0, h1, h2, h3, h4, h5, h6, h7, h8, h9]
  rfl

theorem resolveSlot_ok_zero_inv {ε : Type} {m : PaletteMapper ε} {p v : Nat}
    (h : resolveSlot m p 0 = .ok v) : v = 0 :=
  (Except.ok.inj ((resolveSlot_zero m p).symm.trans h)).symm

theorem decodeSkills_ok_inv {ε : Type} {buf : List Nat} {pos p : Nat}
    {m : PaletteMapper ε} {s : Skills}
    (h : decodeSkills buf pos p m = .ok s) :
    ∃ v0 v1 v2 v3 v4 v5 v6 v7 v8 v9,
      resolveSlot m p (u16d buf pos) = .ok v0 ∧
      resolveSlot m p (u16d buf (pos + 2)) = .ok v1 ∧
      resolveSlot m p (u16d buf (pos + 4)) = .ok v2 ∧
      resolveSlot m p (u16d buf (pos + 6)) = .ok v3 ∧
      resolveSlot m p (u16d buf (pos + 8)) = .ok v4 ∧
      resolveSlot m p (u16d buf (pos + 10)) = .ok v5 ∧
      resolveSlot m p (u16d buf (pos + 12)) = .ok v6 ∧
      resolveSlot m p (u16d buf (pos + 14)) = .ok v7 ∧
      resolveSlot m p (u16d buf (pos + 16)) = .ok v8 ∧
      resolveSlot m p (u16d buf (pos + 18)) = .ok v9 ∧
      s = { heal := v0, aquaticHeal := v1, utility1 := v2, utility2 := v3,
            utility3 := v4, aquaticUtility1 := v5, aquaticUtility2 := v6,
            aquaticUtility3 := v7, elite := v8, aquaticElite := v9 } := by
  unfold decodeSkills at h
  obtain ⟨i0, hi0, h⟩ := bind_ok_inv h
  obtain ⟨v0, hv0, h⟩ := bind_ok_inv h
  obtain ⟨i1, hi1, h⟩ := bind_ok_inv h
  obtain ⟨v1, hv1, h⟩ := bind_ok_inv h
  obtain ⟨i2, hi2, h⟩ := bind_ok_inv h
  obtain ⟨v2, hv2, h⟩ := bind_ok_inv h
  obtain ⟨i3, hi3, h⟩ := bind_ok_inv h
  obtain ⟨v3, hv3, h⟩ := bind_ok_inv h
  obtain ⟨i4, hi4, h⟩ := bind_ok_inv h
  obtain ⟨v4, hv4, h⟩ := bind_ok_inv h
  obtain ⟨i5, hi5, h⟩ := bind_ok_inv h
  obtain ⟨v5, hv5, h⟩ := bind_ok_inv h
  obtain ⟨i6, hi6, h⟩ := bind_ok_inv h
  obtain ⟨v6, hv6, h⟩ := bind_ok_inv h
  obtain ⟨i7, hi7, h⟩ := bind_ok_inv h
  obtain ⟨v7, hv7, h⟩ := bind_ok_inv h
  obtain ⟨i8, hi8, h⟩ := bind_ok_inv h
  obtain ⟨v8, hv8, h⟩ := bind_ok_inv h
  obtain ⟨i9, hi9, h⟩ := bind_ok_inv h
  obtain ⟨v9, hv9, h⟩ := bind_ok_inv h
  rw [u16At_ok_inv hi0] at hv0
  rw [u16At_ok_inv hi1] at hv1
  rw [u16At_ok_inv hi2] at hv2
  rw [u16At_ok_inv hi3] at hv3
  rw [u16At_ok_inv hi4] at hv4
  rw [u16At_ok_inv hi5] at hv5
  rw [u16At_ok_inv hi6] at hv6
  rw [u16At_ok_inv hi7] at hv7
  rw [u16At_ok_inv hi8] at hv8
  rw [u16At_ok_inv hi9] at hv9
  exact ⟨v0, v1, v2, v3, v4, v5, v6, v7, v8, v9, hv0, hv1, hv2, hv3, hv4,
    hv5, hv6, hv7, hv8, hv9, (Except.ok.inj h).symm⟩

theorem mapRaw_ok_inv {ε : Type} {m : PaletteMapper ε} {p i v : Nat}
    (h : mapRaw m p i = .ok v) : m.paletteToSkill p i = .ok v := by
  unfold mapRaw at h
  split at h
  · next heq => exact (Except.ok.inj h) ▸ heq
  · exact Except.noConfusion h

theorem decodeBuffer_ok_parts {ε : Type} {buf : List Nat} {m : PaletteMapper ε}
    {aq : Bool} {b : BuildCode} (h : decodeBuffer buf m aq = .ok b) :
    44 ≤ buf.length ∧ buf.getD 0 0 = 13 ∧
    1 ≤ buf.getD 1 0 ∧ buf.getD 1 0 ≤ 9 ∧
    ∃ specs sp wv,
      readSpecs (ε := ε) buf = .ok specs ∧
      decodeProfessionData buf m (buf.getD 1 0) (aquaticOffset aq) = .ok sp ∧
      (if 44 < buf.length then readExtended (ε := ε) buf
       else pure (none, none)) = .ok wv ∧
      b = { profession := buf.getD 1 0, specializations := specs,
            skills := sp.1, professionSpecific := sp.2,
            weapons := wv.1, skillVariants := wv.2 } := by
  unfold decodeBuffer at h
  by_cases h44 : buf.length < 44
  · rw [if_pos h44] at h
    exact Except.noConfusion h
  · simp only [if_neg h44, byteAt_lt (show 0 < buf.length by omega),
      byteAt_lt (show 1 < buf.length by omega), ok_bind] at h
    split at h
    · exact Except.noConfusion h
    · split at h
      · exact Except.noConfusion h
      · obtain ⟨specs, hspecs, h⟩ := bind_ok_inv h
        obtain ⟨sp, hsp, h⟩ := bind_ok_inv h
        obtain ⟨wv, hwv, h⟩ := bind_ok_inv h
        refine ⟨by omega, by omega, by omega, by omega,
          specs, sp, wv, hspecs, hsp, hwv, (Except.ok.inj h).symm⟩

theorem decodeRevenant_ok_shape {ε : Type} {buf : List Nat}
    {m : PaletteMapper ε} {offset : Nat} {sk : Skills}
    {ps : Option ProfessionSpecificData}
    (h : decodeRevenant buf m offset = .ok (sk, ps)) :
    ∃ legends inactive, ps = some (.revenant legends inactive) ∧
      legends ≠ [] ∧
      (buf.getD (28 + offset) 0 = 0 → buf.getD (29 + offset) 0 = 0 →
        legends = [0]) := by
  unfold decodeRevenant at h
  obtain ⟨l1, hl1, h⟩ := bind_ok_inv h
  obtain ⟨l2, hl2, h⟩ := bind_ok_inv h
  rw [byteAt_ok_inv hl1] at h
  rw [byteAt_ok_inv hl2] at h
  obtain ⟨s0, hs0, h⟩ := bind_ok_inv h
  split at h
  · next hne =>
    obtain ⟨r1, hr1, h⟩ := bind_ok_inv h
    obtain ⟨a1, ha1, h⟩ := bind_ok_inv h
    obtain ⟨r2, hr2, h⟩ := bind_ok_inv h
    obtain ⟨a2, ha2, h⟩ := bind_ok_inv h
    obtain ⟨r3, hr3, h⟩ := bind_ok_inv h
    obtain ⟨a3, ha3, h⟩ := bind_ok_inv h
    split at h
    · have hps := congrArg Prod.snd (Except.ok.inj h)
      refine ⟨[buf.getD (29 + offset) 0], _, hps.symm, by simp, ?_⟩
      intro _ h29
      exact absurd h29 hne
    · have hps := congrArg Prod.snd (Except.ok.inj h)
      refine ⟨[buf.getD (28 + offset) 0, buf.getD (29 + offset) 0], _,
        hps.symm, by simp, ?_⟩
      intro _ h29
      exact absurd h29 hne
  · have hps := congrArg Prod.snd (Except.ok.inj h)
    refine ⟨[buf.getD (28 + offset) 0], _, hps.symm, by simp, ?_⟩
    intro h28 _
    rw [h28]

theorem decodeRevenant_flip {ε : Type} {buf : List Nat} {m : PaletteMapper ε}
    {sk : Skills} {ps : Option ProfessionSpecificData} {s0 : Skills}
    {a1 a2 a3 : Nat}
    (h : decodeRevenant buf m 0 = .ok (sk, ps))
    (h28 : buf.getD 28 0 = 0) (h29 : buf.getD 29 0 ≠ 0)
    (hs : decodeSkills buf 8 9 m = .ok s0)
    (hm1 : m.paletteToSkill 9 (u16d buf 32) = .ok a1) (ha1 : a1 ≠ 0)
    (hm2 : m.paletteToSkill 9 (u16d buf 34) = .ok a2) (ha2 : a2 ≠ 0)
    (hm3 : m.paletteToSkill 9 (u16d buf 36) = .ok a3) (ha3 : a3 ≠ 0) :
    sk = { s0 with utility1 := a1, utility2 := a2, utility3 := a3 } ∧
    ps = some (.revenant [buf.getD 29 0]
      (some (s0.utility1, s0.utility2, s0.utility3))) := by
  unfold decodeRevenant at h
  simp only [Nat.add_zero] at h
  obtain ⟨l1, hl1, h⟩ := bind_ok_inv h
  obtain ⟨l2, hl2, h⟩ := bind_ok_inv h
  rw [byteAt_ok_inv hl1] at h
  rw [byteAt_ok_inv hl2] at h
  obtain ⟨s0x, hs0, h⟩ := bind_ok_inv h
  rw [hs] at hs0
  rw [← Except.ok.inj hs0] at h
  rw [if_pos h29] at h
  have hrb : revAltBase 0 = 32 := rfl
  rw [hrb] at h
  obtain ⟨r1, hr1, h⟩ := bind_ok_inv h
  rw [u16At_ok_inv hr1] at h
  obtain ⟨b1, hb1, h⟩ := bind_ok_inv h
  have : b1 = a1 := by
    have := mapRaw_ok_inv hb1
    rw [hm1] at this
    exact (Except.ok.inj this).symm
  rw [this] at h
  obtain ⟨r2, hr2, h⟩ := bind_ok_inv h
  rw [u16At_ok_inv hr2] at h
  obtain ⟨b2, hb2, h⟩ := bind_ok_inv h
  have : b2 = a2 := by
    have := mapRaw_ok_inv hb2
    rw [hm2] at this
    exact (Except.ok.inj this).symm
  rw [this] at h
  obtain ⟨r3, hr3, h⟩ := bind_ok_inv h
  rw [u16At_ok_inv hr3] at h
  obtain ⟨b3, hb3, h⟩ := bind_ok_inv h
  have : b3 = a3 := by
    have := mapRaw_ok_inv hb3
    rw [hm3] at this
    exact (Except.ok.inj this).symm
  rw [this] at h
  rw [if_pos h28] at h
  have hpair := Except.ok.inj h
  rw [if_pos ha1, if_pos ha2, if_pos ha3] at hpair
  exact ⟨(congrArg Prod.fst hpair).symm, (congrArg Prod.snd hpair).symm⟩

/-! ### Caught-failure machinery (non-Revenant paths wrap all mapper errors) -/

theorem bind_caught_inv {ε : Type} {α β : Type} {x : Except (CodecFailure ε) α}
    {f : α → Except (CodecFailure ε) β} {e : CodecFailure ε}
    (h : x >>= f = .error e)
    (hx : ∀ e0, x = .error e0 → CaughtFailure e0)
    (hf : ∀ a e0, f a = .error e0 → CaughtFailure e0) :
    CaughtFailure e := by
  rcases bind_error_inv h with h | ⟨a, _, h⟩
  · exact hx _ h
  · exact hf _ _ h

theorem byteAt_caught {ε : Type} {buf : List Nat} {i : Nat} {e : CodecFailure ε}
    (h : byteAt buf i = .error e) : CaughtFailure e :=
  Or.inl (byteAt_error_shape h)

theorem u16At_caught {ε : Type} {buf : List Nat} {i : Nat} {e : CodecFailure ε}
    (h : u16At buf i = .error e) : CaughtFailure e :=
  Or.inl (u16At_error_shape h)

theorem u32At_caught {ε : Type} {buf : List Nat} {i : Nat} {e : CodecFailure ε}
    (h : u32At buf i = .error e) : CaughtFailure e :=
  Or.inl (u32At_error_shape h)

theorem resolveSlot_caught {ε : Type} {m : PaletteMapper ε} {p i : Nat}
    {e : CodecFailure ε} (h : resolveSlot m p i = .error e) :
    CaughtFailure e := by
  unfold resolveSlot at h
  split at h
  · exact Except.noConfusion h
  · split at h
    · exact Except.noConfusion h
    · exact Or.inr ⟨_, (Except.error.inj h).symm⟩

theorem decodeSkills_caught {ε : Type} {buf : List Nat} {pos p : Nat}
    {m : PaletteMapper ε} {e : CodecFailure ε}
    (h : decodeSkills buf pos p m = .error e) : CaughtFailure e := by
  unfold decodeSkills at h
  refine bind_caught_inv h (fun _ h => u16At_caught h) (fun i0 e h => ?_)
  refine bind_caught_inv h (fun _ h => resolveSlot_caught h) (fun v0 e h => ?_)
  refine bind_caught_inv h (fun _ h => u16At_caught h) (fun i1 e h => ?_)
  refine bind_caught_inv h (fun _ h => resolveSlot_caught h) (fun v1 e h => ?_)
  refine bind_caught_inv h (fun _ h => u16At_caught h) (fun i2 e h => ?_)
  refine bind_caught_inv h (fun _ h => resolveSlot_caught h) (fun v2 e h => ?_)
  refine bind_caught_inv h (fun _ h => u16At_caught h) (fun i3 e h => ?_)
  refine bind_caught_inv h (fun _ h => resolveSlot_caught h) (fun v3 e h => ?_)
  refine bind_caught_inv h (fun _ h => u16At_caught h) (fun i4 e h => ?_)
  refine bind_caught_inv h (fun _ h => resolveSlot_caught h) (fun v4 e h => ?_)
  refine bind_caught_inv h (fun _ h => u16At_caught h) (fun i5 e h => ?_)
  refine bind_caught_inv h (fun _ h => resolveSlot_caught h) (fun v5 e h => ?_)
  refine bind_caught_inv h (fun _ h => u16At_caught h) (fun i6 e h => ?_)
  refine bind_caught_inv h (fun _ h => resolveSlot_caught h) (fun v6 e h => ?_)
  refine bind_caught_inv h (fun _ h => u16At_caught h) (fun i7 e h => ?_)
  refine bind_caught_inv h (fun _ h => resolveSlot_caught h) (fun v7 e h => ?_)
  refine bind_caught_inv h (fun _ h => u16At_caught h) (fun i8 e h => ?_)
  refine bind_caught_inv h (fun _ h => resolveSlot_caught h) (fun v8 e h => ?_)
  refine bind_caught_inv h (fun _ h => u16At_caught h) (fun i9 e h => ?_)
  refine bind_caught_inv h (fun _ h => resolveSlot_caught h) (fun v9 e h => ?_)
  exact Except.noConfusion h

theorem readSpecs_caught {ε : Type} {buf : List Nat} {e : CodecFailure ε}
    (h : readSpecs buf = .error e) : CaughtFailure e := by
  unfold readSpecs at h
  refine bind_caught_inv h (fun _ h => byteAt_caught h) (fun s0 e h => ?_)
  refine bind_caught_inv h (fun _ h => byteAt_caught h) (fun t0 e h => ?_)
  refine bind_caught_inv h (fun _ h => byteAt_caught h) (fun s1 e h => ?_)
  refine bind_caught_inv h (fun _ h => byteAt_caught h) (fun t1 e h => ?_)
  refine bind_caught_inv h (fun _ h => byteAt_caught h) (fun s2 e h => ?_)
  refine bind_caught_inv h (fun _ h => byteAt_caught h) (fun t2 e h => ?_)
  exact Except.noConfusion h

theorem decodeRangerData_caught {ε : Type} {buf : List Nat} {offset : Nat}
    {e : CodecFailure ε} (h : decodeRangerData buf offset = .error e) :
    CaughtFailure e := by
  unfold decodeRangerData at h
  refine bind_caught_inv h (fun _ h => byteAt_caught h) (fun p1 e h => ?_)
  refine bind_caught_inv h (fun _ h => byteAt_caught h) (fun p2 e h => ?_)
  exact Except.noConfusion h

theorem readU16s_caught {ε : Type} {buf : List Nat} :
    ∀ (n pos : Nat) {e : CodecFailure ε},
      readU16s buf pos n = .error e → CaughtFailure e := by
  intro n
  induction n with
  | zero => intro pos e h; exact Except.noConfusion h
  | succ k ih =>
    intro pos e h
    unfold readU16s at h
    refine bind_caught_inv h (fun _ h => u16At_caught h) (fun v e h => ?_)
    refine bind_caught_inv h (fun _ h => ih _ h) (fun rest e h => ?_)
    exact Except.noConfusion h

theorem readU32s_caught {ε : Type} {buf : List Nat} :
    ∀ (n pos : Nat) {e : CodecFailure ε},
      readU32s buf pos n = .error e → CaughtFailure e := by
  intro n
  induction n with
  | zero => intro pos e h; exact Except.noConfusion h
  | succ k ih =>
    intro pos e h
    unfold readU32s at h
    refine bind_caught_inv h (fun _ h => u32At_caught h) (fun v e h => ?_)
    refine bind_caught_inv h (fun _ h => ih _ h) (fun rest e h => ?_)
    exact Except.noConfusion h

theorem readExtended_caught {ε : Type} {buf : List Nat} {e : CodecFailure ε}
    (h : readExtended buf = .error e) : CaughtFailure e := by
  unfold readExtended at h
  refine bind_caught_inv h (fun _ h => byteAt_caught h) (fun wc e h => ?_)
  refine bind_caught_inv h (fun _ h => readU16s_caught _ _ h) (fun ws e h => ?_)
  refine bind_caught_inv h (fun _ h => byteAt_caught h) (fun vc e h => ?_)
  refine bind_caught_inv h (fun _ h => readU32s_caught _ _ h) (fun vs e h => ?_)
  exact Except.noConfusion h

theorem decodeProfessionData_caught {ε : Type} {buf : List Nat}
    {m : PaletteMapper ε} {profession offset : Nat} {e : CodecFailure ε}
    (hne : profession ≠ 9)
    (h : decodeProfessionData buf m profession offset = .error e) :
    CaughtFailure e := by
  unfold decodeProfessionData at h
  rw [if_neg hne] at h
  refine bind_caught_inv h (fun _ h => decodeSkills_caught h) (fun s e h => ?_)
  refine bind_caught_inv h (fun _ h => ?_) (fun ps e h => ?_)
  · split at h
    · exact decodeRangerData_caught h
    · exact Except.noConfusion h
  · exact Except.noConfusion h

theorem decodeBuffer_error_nonrev {ε : Type} {buf : List Nat}
    {m : PaletteMapper ε} {aq : Bool} {e : CodecFailure ε}
    (hprof : buf.getD 1 0 ≠ 9) (h : decodeBuffer buf m aq = .error e) :
    e = .buildError .INVALID_LENGTH none ∨
    e = .buildError .INVALID_TYPE none ∨
    e = .buildError .INVALID_PROFESSION none ∨ CaughtFailure e := by
  unfold decodeBuffer at h
  by_cases h44 : buf.length < 44
  · rw [if_pos h44] at h
    exact Or.inl (Except.error.inj h).symm
  · simp only [if_neg h44, byteAt_lt (show 0 < buf.length by omega),
      byteAt_lt (show 1 < buf.length by omega), ok_bind] at h
    split at h
    · exact Or.inr (Or.inl (Except.error.inj h).symm)
    · split at h
      · exact Or.inr (Or.inr (Or.inl (Except.error.inj h).symm))
      · refine Or.inr (Or.inr (Or.inr ?_))
        refine bind_caught_inv h (fun _ h => readSpecs_caught h)
          (fun specs e h => ?_)
        refine bind_caught_inv h
          (fun _ h => decodeProfessionData_caught hprof h) (fun sp e h => ?_)
        refine bind_caught_inv h (fun _ h => ?_) (fun wv e h => ?_)
        · split at h
          · exact readExtended_caught h
          · exact Except.noConfusion h
        · exact Except.noConfusion h

/-! ### Mapper congruence on the non-Revenant paths -/

theorem resolveSlot_congr {ε : Type} {m m2 : PaletteMapper ε}
    (hagree : ∀ p i, i ≠ 0 → m.paletteToSkill p i = m2.paletteToSkill p i) :
    ∀ p i, resolveSlot m p i = resolveSlot m2 p i := by
  intro p i
  unfold resolveSlot
  split
  · rfl
  · next hi => rw [hagree p i hi]

theorem decodeSkills_congr {ε : Type} {buf : List Nat} {pos p : Nat}
    {m m2 : PaletteMapper ε}
    (hagree : ∀ q i, i ≠ 0 → m.paletteToSkill q i = m2.paletteToSkill q i) :
    decodeSkills buf pos p m = decodeSkills buf pos p m2 := by
  have h := resolveSlot_congr hagree
  simp only [decodeSkills, h]

theorem decodeProfessionData_congr {ε : Type} {buf : List Nat}
    {m m2 : PaletteMapper ε} {profession offset : Nat}
    (hagree : ∀ q i, i ≠ 0 → m.paletteToSkill q i = m2.paletteToSkill q i)
    (hne : profession ≠ 9) :
    decodeProfessionData buf m profession offset =
      decodeProfessionData buf m2 profession offset := by
  unfold decodeProfessionData
  rw [if_neg hne, if_neg hne, decodeSkills_congr hagree]

theorem decodeBuffer_congr_nonrev {ε : Type} {buf : List Nat}
    {m m2 : PaletteMapper ε} {aq : Bool}
    (hagree : ∀ q i, i ≠ 0 → m.paletteToSkill q i = m2.paletteToSkill q i)
    (hprof : buf.getD 1 0 ≠ 9) :
    decodeBuffer buf m aq = decodeBuffer buf m2 aq := by
  unfold decodeBuffer
  by_cases h44 : buf.length < 44
  · simp only [if_pos h44]
  · simp only [if_neg h44, byteAt_lt (show 0 < buf.length by omega),
      byteAt_lt (show 1 < buf.length by omega), ok_bind]
    split
    · rfl
    · split
      · rfl
      · rw [decodeProfessionData_congr hagree hprof]

/-! ### Trailer machinery for C3 -/

theorem readU16s_ok_of {ε : Type} (buf : List Nat) :
    ∀ (n pos : Nat), pos + 2 * n ≤ buf.length →
      ∃ l, readU16s (ε := ε) buf pos n = .ok l := by
  intro n
  induction n with
  | zero => intro pos _; exact ⟨[], rfl⟩
  | succ k ih =>
    intro pos hlen
    obtain ⟨l, hl⟩ := ih (pos + 2) (by omega)
    refine ⟨u16d buf pos :: l, ?_⟩
    simp only [readU16s, u16At_lt (show pos + 1 < buf.length by omega),
      ok_bind, hl]
    rfl

theorem readU32s_ok_of {ε : Type} (buf : List Nat) :
    ∀ (n pos : Nat), pos + 4 * n ≤ buf.length →
      ∃ l, readU32s (ε := ε) buf pos n = .ok l := by
  intro n
  induction n with
  | zero => intro pos _; exact ⟨[], rfl⟩
  | succ k ih =>
    intro pos hlen
    obtain ⟨l, hl⟩ := ih (pos + 4) (by omega)
    refine ⟨u32d buf pos :: l, ?_⟩
    simp only [readU32s, u32At_lt (show pos + 3 < buf.length by omega),
      ok_bind, hl]
    rfl

theorem readU16s_ok_inv {ε : Type} {buf : List Nat} :
    ∀ (n pos : Nat) {l : List Nat}, readU16s (ε := ε) buf pos n = .ok l →
      l = (List.range n).map (fun k => u16d buf (pos + 2 * k)) := by
  intro n
  induction n with
  | zero =>
    intro pos l h
    rw [List.range_zero, List.map_nil]
    exact (Except.ok.inj h).symm
  | succ k ih =>
    intro pos l h
    unfold readU16s at h
    obtain ⟨v, hv, h⟩ := bind_ok_inv h
    obtain ⟨rest, hrest, h⟩ := bind_ok_inv h
    rw [← Except.ok.inj h, u16At_ok_inv hv, ih _ hrest,
      List.range_succ_eq_map, List.map_cons, List.map_map]
    rw [show pos + 2 * 0 = pos by omega]
    exact congrArg (List.cons (u16d buf pos))
      (List.map_congr_left (fun j _ => by
        simp only [Function.comp_apply]
        exact congrArg (u16d buf) (by omega)))

theorem readU32s_ok_inv {ε : Type} {buf : List Nat} :
    ∀ (n pos : Nat) {l : List Nat}, readU32s (ε := ε) buf pos n = .ok l →
      l = (List.range n).map (fun k => u32d buf (pos + 4 * k)) := by
  intro n
  induction n with
  | zero =>
    intro pos l h
    rw [List.range_zero, List.map_nil]
    exact (Except.ok.inj h).symm
  | succ k ih =>
    intro pos l h
    unfold readU32s at h
    obtain ⟨v, hv, h⟩ := bind_ok_inv h
    obtain ⟨rest, hrest, h⟩ := bind_ok_inv h
    have hv2 : v = u32d buf pos := u32At_ok_inv hv
    rw [← Except.ok.inj h, hv2, ih _ hrest,
      List.range_succ_eq_map, List.map_cons, List.map_map]
    rw [show pos + 4 * 0 = pos by omega]
    exact congrArg (List.cons (u32d buf pos))
      (List.map_congr_left (fun j _ => by
        simp only [Function.comp_apply]
        exact congrArg (u32d buf) (by omega)))

theorem readExtended_ok_inv {ε : Type} {buf : List Nat}
    {wv : Option (List Nat) × Option (List Nat)}
    (h : readExtended (ε := ε) buf = .ok wv) :
    wv.1 = (if buf.getD 44 0 = 0 then none
      else some ((List.range (buf.getD 44 0)).map
        (fun k => u16d buf (45 + 2 * k)))) ∧
    wv.2 = (if buf.getD (45 + 2 * buf.getD 44 0) 0 = 0 then none
      else some ((List.range (buf.getD (45 + 2 * buf.getD 44 0) 0)).map
        (fun k => u32d buf (46 + 2 * buf.getD 44 0 + 4 * k)))) := by
  unfold readExtended at h
  obtain ⟨wc, hwc, h⟩ := bind_ok_inv h
  have hwc2 := byteAt_ok_inv hwc
  subst hwc2
  obtain ⟨ws, hws, h⟩ := bind_ok_inv h
  obtain ⟨vc, hvc, h⟩ := bind_ok_inv h
  have hvc2 := byteAt_ok_inv hvc
  subst hvc2
  obtain ⟨vs, hvs, h⟩ := bind_ok_inv h
  rw [readU16s_ok_inv _ _ hws] at h
  rw [readU32s_ok_inv _ _ hvs] at h
  rw [← Except.ok.inj h]
  exact ⟨rfl, rfl⟩

theorem readExtended_ok_of {ε : Type} (buf : List Nat)
    (hL : buf.length =
      46 + 2 * buf.getD 44 0 + 4 * buf.getD (45 + 2 * buf.getD 44 0) 0) :
    ∃ wv, readExtended (ε := ε) buf = .ok wv := by
  obtain ⟨ws, hws⟩ := readU16s_ok_of (ε := ε) buf (buf.getD 44 0) 45 (by omega)
  obtain ⟨vs, hvs⟩ :=
    readU32s_ok_of (ε := ε) buf (buf.getD (45 + 2 * buf.getD 44 0) 0)
      (46 + 2 * buf.getD 44 0) (by omega)
  refine ⟨((if buf.getD 44 0 = 0 then none else some ws),
          (if buf.getD (45 + 2 * buf.getD 44 0) 0 = 0 then none
           else some vs)), ?_⟩
  simp only [readExtended, byteAt_lt (show 44 < buf.length by omega), ok_bind,
    hws, byteAt_lt (show 45 + 2 * buf.getD 44 0 < buf.length by omega), hvs]
  rfl

theorem readSpecs_ok_of {ε : Type} (buf : List Nat) (h : 7 < buf.length) :
    ∃ l, readSpecs (ε := ε) buf = .ok l := by
  refine ⟨specPair (buf.getD 2 0) (buf.getD 3 0) ++
    specPair (buf.getD 4 0) (buf.getD 5 0) ++
    specPair (buf.getD 6 0) (buf.getD 7 0), ?_⟩
  simp only [readSpecs, byteAt_lt (show 2 < buf.length by omega),
    byteAt_lt (show 3 < buf.length by omega),
    byteAt_lt (show 4 < buf.length by omega),
    byteAt_lt (show 5 < buf.length by omega),
    byteAt_lt (show 6 < buf.length by omega),
    byteAt_lt (show 7 < buf.length by omega), ok_bind]
  rfl

theorem decodeRangerData_ok_of {ε : Type} (buf : List Nat)
    (h : 44 ≤ buf.length) :
    ∃ o, decodeRangerData (ε := ε) buf 0 = .ok o := by
  refine ⟨(if buf.getD 28 0 = 0 ∧ buf.getD 29 0 = 0 then none
           else some (.ranger (buf.getD 28 0) (buf.getD 29 0))), ?_⟩
  simp only [decodeRangerData, Nat.add_zero,
    byteAt_lt (show 28 < buf.length by omega),
    byteAt_lt (show 29 < buf.length by omega), ok_bind]
  rfl

theorem decodeRevenant_ok_of {ε : Type} (buf : List Nat) {m : PaletteMapper ε}
    (hlen : 44 ≤ buf.length) (hm : MapperTotal m) :
    ∃ r, decodeRevenant buf m 0 = .ok r := by
  obtain ⟨s, hsk⟩ := decodeSkills_ok_of buf 8 9 (by omega) hm
  by_cases hl2 : buf.getD 29 0 = 0
  · refine ⟨(s, some (.revenant [buf.getD 28 0] none)), ?_⟩
    simp only [decodeRevenant, Nat.add_zero,
      byteAt_lt (show 28 < buf.length by omega),
      byteAt_lt (show 29 < buf.length by omega), ok_bind, hsk,
      if_neg (not_not_intro hl2)]
    rfl
  · obtain ⟨a1, ha1⟩ := mapRaw_ok_of hm 9 (u16d buf 32)
    obtain ⟨a2, ha2⟩ := mapRaw_ok_of hm 9 (u16d buf 34)
    obtain ⟨a3, ha3⟩ := mapRaw_ok_of hm 9 (u16d buf 36)
    by_cases hl1 : buf.getD 28 0 = 0
    · refine ⟨({ s with utility1 := if a1 ≠ 0 then a1 else s.utility1,
                        utility2 := if a2 ≠ 0 then a2 else s.utility2,
                        utility3 := if a3 ≠ 0 then a3 else s.utility3 },
               some (.revenant [buf.getD 29 0]
                 (some (s.utility1, s.utility2, s.utility3)))), ?_⟩
      simp only [decodeRevenant, Nat.add_zero,
        byteAt_lt (show 28 < buf.length by omega),
        byteAt_lt (show 29 < buf.length by omega), ok_bind, hsk, if_pos hl2,
        show revAltBase 0 = 32 from rfl,
        u16At_lt (show 32 + 1 < buf.length by omega),
        u16At_lt (show 32 + 2 + 1 < buf.length by omega),
        u16At_lt (show 32 + 4 + 1 < buf.length by omega)]
      simp only [show (32 : Nat) + 2 = 34 from rfl,
        show (32 : Nat) + 4 = 36 from rfl, ha1, ha2, ha3, ok_bind,
        if_pos hl1]
      rfl
    · refine ⟨(s, some (.revenant [buf.getD 28 0, buf.getD 29 0]
        (if a1 ≠ 0 ∨ a2 ≠ 0 ∨ a3 ≠ 0 then some (a1, a2, a3) else none))), ?_⟩
      simp only [decodeRevenant, Nat.add_zero,
        byteAt_lt (show 28 < buf.length by omega),
        byteAt_lt (show 29 < buf.length by omega), ok_bind, hsk, if_pos hl2,
        show revAltBase 0 = 32 from rfl,
        u16At_lt (show 32 + 1 < buf.length by omega),
        u16At_lt (show 32 + 2 + 1 < buf.length by omega),
        u16At_lt (show 32 + 4 + 1 < buf.length by omega)]
      simp only [show (32 : Nat) + 2 = 34 from rfl,
        show (32 : Nat) + 4 = 36 from rfl, ha1, ha2, ha3, ok_bind,
        if_neg hl1]
      rfl

theorem decodeProfessionData_ok_of {ε : Type} (buf : List Nat)
    {m : PaletteMapper ε} (hlen : 44 ≤ buf.length) (hm : MapperTotal m)
    (profession : Nat) :
    ∃ sp, decodeProfessionData buf m profession 0 = .ok sp := by
  by_cases h9 : profession = 9
  · obtain ⟨r, hr⟩ := decodeRevenant_ok_of buf hlen hm
    subst h9
    exact ⟨r, by unfold decodeProfessionData; rw [if_pos rfl]; exact hr⟩
  · obtain ⟨s, hs⟩ := decodeSkills_ok_of buf 8 profession (by omega) hm
    by_cases h4 : profession = 4
    · obtain ⟨o, ho⟩ := decodeRangerData_ok_of (ε := ε) buf hlen
      refine ⟨(s, o), ?_⟩
      unfold decodeProfessionData
      rw [if_neg h9]
      simp only [Nat.add_zero, hs, ok_bind, if_pos h4, ho]
      rfl
    · refine ⟨(s, none), ?_⟩
      unfold decodeProfessionData
      rw [if_neg h9]
      simp only [Nat.add_zero, hs, ok_bind, if_neg h4]
      rfl

/-! ### Claims -/

/-- C6: a base64-decoded buffer shorter than 44 bytes fails with error kind
INVALID_LENGTH; a buffer of 44 bytes or more passes the length check, i.e. the
result is never an INVALID_LENGTH error. -/
theorem gw2_c6_length_boundary {ε : Type} (buf : List Nat) (m : PaletteMapper ε)
    (aq : Bool) :
    (buf.length < 44 →
      decodeBuffer buf m aq = .error (.buildError .INVALID_LENGTH none)) ∧
    (44 ≤ buf.length →
      ∀ c, decodeBuffer buf m aq ≠ .error (.buildError .INVALID_LENGTH c)) := by
  constructor
  · intro h
    unfold decodeBuffer
    rw [if_pos h]
  · intro hlen c hcontra
    rcases decodeBuffer_error_cases hlen hcontra with ⟨he, _⟩ | ⟨he, _⟩ | hp
    · simp at he
    · simp at he
    · exact postHeader_ne_buildError hp (by decide) rfl

/-- Closed instance of C6: a 43-byte buffer fails with INVALID_LENGTH, a
44-byte buffer does not. -/
theorem gw2_c6_witness :
    decodeBuffer (ε := Unit) (List.replicate 43 0) idMapper false =
      .error (.buildError .INVALID_LENGTH none) ∧
    decodeBuffer (ε := Unit) (List.replicate 44 0) idMapper false ≠
      .error (.buildError .INVALID_LENGTH none) :=
  ⟨(gw2_c6_length_boundary (List.replicate 43 0) idMapper false).1 (by decide),
   (gw2_c6_length_boundary (List.replicate 44 0) idMapper false).2
     (by decide) none⟩

/-- C7: on a sufficiently long buffer, a type byte other than 0x0D fails with
INVALID_TYPE; with the right type byte, a profession byte outside 1-9 fails
with INVALID_PROFESSION; professions 1 through 9 are accepted (the result is
never an INVALID_TYPE or INVALID_PROFESSION error). -/
theorem gw2_c7_type_profession_boundary {ε : Type} (buf : List Nat)
    (m : PaletteMapper ε) (aq : Bool) (hlen : 44 ≤ buf.length) :
    (buf.getD 0 0 ≠ 13 →
      decodeBuffer buf m aq = .error (.buildError .INVALID_TYPE none)) ∧
    (buf.getD 0 0 = 13 → (buf.getD 1 0 < 1 ∨ buf.getD 1 0 > 9) →
      decodeBuffer buf m aq = .error (.buildError .INVALID_PROFESSION none)) ∧
    (buf.getD 0 0 = 13 → 1 ≤ buf.getD 1 0 → buf.getD 1 0 ≤ 9 → ∀ c,
      decodeBuffer buf m aq ≠ .error (.buildError .INVALID_TYPE c) ∧
      decodeBuffer buf m aq ≠ .error (.buildError .INVALID_PROFESSION c)) := by
  refine ⟨?_, ?_, ?_⟩
  · intro h13
    unfold decodeBuffer
    rw [if_neg (by omega), byteAt_lt (by omega), ok_bind, if_pos h13]
  · intro h13 hp
    unfold decodeBuffer
    rw [if_neg (by omega), byteAt_lt (by omega), ok_bind,
      if_neg (not_not_intro h13), byteAt_lt (by omega), ok_bind, if_pos hp]
  · intro h13 hp1 hp9 c
    constructor
    · intro hcontra
      rcases decodeBuffer_error_cases hlen hcontra with ⟨_, hne⟩ | ⟨he, _⟩ | hp
      · exact hne h13
      · simp at he
      · exact postHeader_ne_buildError hp (by decide) rfl
    · intro hcontra
      rcases decodeBuffer_error_cases hlen hcontra with ⟨he, _⟩ | ⟨_, hrange⟩ | hp
      · simp at he
      · omega
      · exact postHeader_ne_buildError hp (by decide) rfl

/-- Closed instance of C7: type byte 0xFF is rejected as INVALID_TYPE,
profession byte 0 as INVALID_PROFESSION, and profession byte 1 with type byte
0x0D triggers neither error. -/
theorem gw2_c7_witness :
    decodeBuffer (ε := Unit) (255 :: List.replicate 43 0) idMapper false =
      .error (.buildError .INVALID_TYPE none) ∧
    decodeBuffer (ε := Unit) (13 :: 0 :: List.replicate 42 0) idMapper false =
      .error (.buildError .INVALID_PROFESSION none) ∧
    decodeBuffer (ε := Unit) (13 :: 1 :: List.replicate 42 0) idMapper false ≠
      .error (.buildError .INVALID_TYPE none) :=
  ⟨(gw2_c7_type_profession_boundary (255 :: List.replicate 43 0) idMapper false
      (by decide)).1 (by decide),
   (gw2_c7_type_profession_boundary (13 :: 0 :: List.replicate 42 0) idMapper
      false (by decide)).2.1 (by decide) (by decide),
   ((gw2_c7_type_profession_boundary (13 :: 1 :: List.replicate 42 0) idMapper
      false (by decide)).2.2 (by decide) (by decide) (by decide) none).1⟩

/-- C10: an input starting with the two characters `[&` has its first two
characters and its final character removed unconditionally before
base64-decoding — even when the final character is not `]` — while an input
not starting with `[&` is passed through unchanged. -/
theorem gw2_c10_wrapper_strip :
    (∀ (b : List Char) (c : Char),
      stripWrapper ('[' :: '&' :: (b ++ [c])) = b) ∧
    (∀ s : List Char, (∀ t : List Char, s ≠ '[' :: '&' :: t) →
      stripWrapper s = s) := by
  constructor
  · intro b c
    simp [stripWrapper]
  · intro s hs
    match s with
    | [] => rfl
    | [c1] => rfl
    | c1 :: c2 :: rest =>
      show (if c1 = '[' ∧ c2 = '&' then rest.dropLast else c1 :: c2 :: rest) =
        c1 :: c2 :: rest
      rw [if_neg]
      rintro ⟨h1, h2⟩
      exact hs rest (by rw [h1, h2])

/-- Closed instance of C10: `[&abcx` with final character `x` (not `]`)
strips to `abc`; the unwrapped input `q` is unchanged. -/
theorem gw2_c10_witness :
    stripWrapper ('[' :: '&' :: ("abc".data ++ ['x'])) = "abc".data ∧
    stripWrapper "q".data = "q".data :=
  ⟨gw2_c10_wrapper_strip.1 "abc".data 'x',
   gw2_c10_wrapper_strip.2 "q".data
     (fun t h => absurd (List.cons.inj h).1 (by decide))⟩

/-- C2 (the code evaluated at the failing input): the decoder's `skillKeys`
list assigns the 4th byte pair of the skill region to `utility2`, not to
`aquaticUtility1` as the interleaved pair order of the claim (and of the
changelog's corrected order) requires.  With the identity mapper, palette
index 7 in pair 3 lands in utility2. -/
theorem gw2_c2_order_bug :
    decodeBuffer (ε := Unit) c2Buf idMapper false =
      .ok { profession := 1, specializations := [],
            skills := { heal := 0, utility1 := 0, utility2 := 7, utility3 := 0,
                        elite := 0, aquaticHeal := 0, aquaticUtility1 := 0,
                        aquaticUtility2 := 0, aquaticUtility3 := 0,
                        aquaticElite := 0 },
            professionSpecific := none, weapons := none,
            skillVariants := none } := by
  decide

/-- C1 (the code evaluated at the failing input): with the identity mapper —
whose two directions are true inverses — encoding `c1Build` and decoding the
result does not give `c1Build` back: the encoder writes the ten slots in
interleaved pair order while the decoder reads them in its grouped
`skillKeys` order, so the utility and aquatic slots come back permuted. -/
theorem gw2_c1_roundtrip_bug :
    encodeChatLink c1Build idMapper true =
      .ok "[&DQEAAAAAAAABAAYAAgAHAAMACAAEAAkABQAKAAAAAAAAAAAAAAAAAAAAAAA=]" ∧
    decodeChatLink
        "[&DQEAAAAAAAABAAYAAgAHAAMACAAEAAkABQAKAAAAAAAAAAAAAAAAAAAAAAA=]"
        idMapper false ≠ .ok c1Build := by
  constructor
  · decide
  · decide

/-- C8: `validate` never short-circuits — its errors accumulate across the
skill, specialization and pet checks; `valid` is exactly the absence of
errors and `warnings` is always empty; the scenario with one invalid skill ID
and one cross-profession specialization yields exactly those 2 errors, each
with the context naming the offending ID, and `valid = false`. -/
theorem gw2_c8_validator_accumulation :
    (∀ (b : BuildCode) (mp : MetadataProvider),
      (validate b mp).warnings = [] ∧
      ((validate b mp).valid = true ↔ (validate b mp).errors = [])) ∧
    (validate c8Build c8Provider).errors =
      [{ type := .INVALID_SKILL_ID,
         message := "Skill ID 999 does not exist in GW2 API",
         context := .skill 999 "heal" },
       { type := .SPECIALIZATION_NOT_FOR_PROFESSION,
         message := "Specialization \"Soul Reaping\" (50) belongs to Necromancer, not Guardian",
         context := .specializationProfession 50 "Soul Reaping" "Guardian"
           "Necromancer" }] ∧
    (validate c8Build c8Provider).valid = false := by
  refine ⟨fun b mp => ⟨rfl, ?_⟩, by decide, by decide⟩
  simp [validate, List.isEmpty_iff]

/-- C9: every successful decode of a Revenant buffer (profession byte 9)
carries a professionSpecific of type revenant with a non-empty legends list;
when both legend bytes are zero the list is exactly [0]. -/
theorem gw2_c9_revenant_extra_always_present {ε : Type} (buf : List Nat)
    (m : PaletteMapper ε) (aq : Bool) (b : BuildCode)
    (hok : decodeBuffer buf m aq = .ok b) (hprof : buf.getD 1 0 = 9) :
    ∃ legends inactive,
      b.professionSpecific = some (.revenant legends inactive) ∧
      legends ≠ [] ∧
      (buf.getD (28 + aquaticOffset aq) 0 = 0 →
       buf.getD (29 + aquaticOffset aq) 0 = 0 → legends = [0]) := by
  obtain ⟨_, _, _, _, specs, sp, wv, hspecs, hsp, hwv, hb⟩ :=
    decodeBuffer_ok_parts hok
  rw [hprof] at hsp
  unfold decodeProfessionData at hsp
  rw [if_pos rfl] at hsp
  obtain ⟨legends, inactive, hps, hne, hzz⟩ :=
    decodeRevenant_ok_shape
      (show decodeRevenant buf m (aquaticOffset aq) = .ok (sp.1, sp.2) by
        rw [hsp])
  exact ⟨legends, inactive, by rw [hb]; exact hps, hne, hzz⟩

/-- Closed instance of C9: a Revenant buffer with both legend bytes zero
still decodes with a revenant professionSpecific whose legend list is [0]. -/
theorem gw2_c9_witness :
    ∃ legends inactive,
      BuildCode.professionSpecific
          { profession := 9, specializations := [], skills := zeroSkills,
            professionSpecific := some (.revenant [0] none),
            weapons := none, skillVariants := none } =
        some (.revenant legends inactive) ∧
      legends ≠ [] ∧
      ((13 :: 9 :: List.replicate 42 0).getD (28 + aquaticOffset false) 0 = 0 →
       (13 :: 9 :: List.replicate 42 0).getD (29 + aquaticOffset false) 0 = 0 →
       legends = [0]) :=
  gw2_c9_revenant_extra_always_present (13 :: 9 :: List.replicate 42 0)
    idMapper false
    { profession := 9, specializations := [], skills := zeroSkills,
      professionSpecific := some (.revenant [0] none),
      weapons := none, skillVariants := none }
    (by decide) (by decide)

/-- C5: for a Revenant buffer with legend-slot-1 = 0, legend-slot-2 = 5 and
non-zero (mapper-resolved) inactive-skill values, decode returns a
single-element legend list [5], moves the three just-read inactive values
into the primary utility1-3 slots, and moves the original primary utility1-3
values into inactiveSkills. -/
theorem gw2_c5_revenant_flip {ε : Type} (buf : List Nat) (m : PaletteMapper ε)
    (b : BuildCode) (s0 : Skills) (a1 a2 a3 : Nat)
    (hok : decodeBuffer buf m false = .ok b)
    (hprof : buf.getD 1 0 = 9)
    (h28 : buf.getD 28 0 = 0) (h29 : buf.getD 29 0 = 5)
    (hs : decodeSkills buf 8 9 m = .ok s0)
    (hm1 : m.paletteToSkill 9 (u16d buf 32) = .ok a1) (ha1 : a1 ≠ 0)
    (hm2 : m.paletteToSkill 9 (u16d buf 34) = .ok a2) (ha2 : a2 ≠ 0)
    (hm3 : m.paletteToSkill 9 (u16d buf 36) = .ok a3) (ha3 : a3 ≠ 0) :
    b.professionSpecific =
      some (.revenant [5] (some (s0.utility1, s0.utility2, s0.utility3))) ∧
    b.skills = { s0 with utility1 := a1, utility2 := a2, utility3 := a3 } := by
  obtain ⟨_, _, _, _, specs, sp, wv, hspecs, hsp, hwv, hb⟩ :=
    decodeBuffer_ok_parts hok
  rw [hprof] at hsp
  unfold decodeProfessionData at hsp
  rw [if_pos rfl] at hsp
  have hoff : aquaticOffset false = 0 := rfl
  rw [hoff] at hsp
  obtain ⟨hsk, hps⟩ := decodeRevenant_flip
    (show decodeRevenant buf m 0 = .ok (sp.1, sp.2) by rw [hsp]) h28
    (by rw [h29]; exact (by decide)) hs hm1 ha1 hm2 ha2 hm3 ha3
  rw [h29] at hps
  exact ⟨by rw [hb]; exact hps, by rw [hb]; exact hsk⟩

/-- Closed instance of C5 at `c5Buf` with the identity mapper. -/
theorem gw2_c5_witness :
    c5Build.professionSpecific =
      some (.revenant [5]
        (some (zeroSkills.utility1, zeroSkills.utility2, zeroSkills.utility3))) ∧
    c5Build.skills =
      { zeroSkills with utility1 := 1, utility2 := 2, utility3 := 3 } :=
  gw2_c5_revenant_flip c5Buf idMapper c5Build zeroSkills 1 2 3 (by decide)
    (by decide) (by decide) (by decide) (by decide) (by decide) (by decide)
    (by decide) (by decide) (by decide) (by decide)

/-- C4 as stated is false: decoding `c4Buf` (legend-slot-2 non-zero, inactive
pairs zero) with a mapper that rejects index 0 invokes the mapper on raw
index 0 and surfaces the rejection uncaught — not as PALETTE_LOOKUP_FAILED. -/
theorem gw2_c4_counterexample :
    decodeBuffer (ε := Unit) c4Buf strictMapper false =
      .error (.uncaught ()) ∧
    decodeBuffer (ε := Unit) c4Buf strictMapper false ≠
      .error (.buildError .PALETTE_LOOKUP_FAILED (some ())) := by
  constructor
  · decide
  · decide

/-- C4 amended: on the non-Revenant decode paths the mapper is invoked only
for non-zero raw palette indices (decode depends only on the mapper's values
at non-zero indices), every failure surfaces as a BuildCodeError — never an
uncaught mapper rejection — with PALETTE_LOOKUP_FAILED always wrapping a
cause; and in `decodeSkills` (all ten slots, every profession) a slot whose
raw index is 0 stays 0.  The Revenant inactive-skill reads are the exception
recorded by the counterexample. -/
theorem gw2_c4_palette_guard_amended {ε : Type} :
    (∀ (buf : List Nat) (m m2 : PaletteMapper ε) (aq : Bool),
      (∀ q i, i ≠ 0 → m.paletteToSkill q i = m2.paletteToSkill q i) →
      buf.getD 1 0 ≠ 9 →
      decodeBuffer buf m aq = decodeBuffer buf m2 aq) ∧
    (∀ (buf : List Nat) (m : PaletteMapper ε) (aq : Bool) (e : CodecFailure ε),
      buf.getD 1 0 ≠ 9 → decodeBuffer buf m aq = .error e →
      (∀ c, e ≠ .uncaught c) ∧
      (∀ c, e = .buildError .PALETTE_LOOKUP_FAILED c → ∃ c0, c = some c0)) ∧
    (∀ (buf : List Nat) (pos p : Nat) (m : PaletteMapper ε) (s : Skills),
      decodeSkills buf pos p m = .ok s →
      (u16d buf pos = 0 → s.heal = 0) ∧
      (u16d buf (pos + 2) = 0 → s.aquaticHeal = 0) ∧
      (u16d buf (pos + 4) = 0 → s.utility1 = 0) ∧
      (u16d buf (pos + 6) = 0 → s.utility2 = 0) ∧
      (u16d buf (pos + 8) = 0 → s.utility3 = 0) ∧
      (u16d buf (pos + 10) = 0 → s.aquaticUtility1 = 0) ∧
      (u16d buf (pos + 12) = 0 → s.aquaticUtility2 = 0) ∧
      (u16d buf (pos + 14) = 0 → s.aquaticUtility3 = 0) ∧
      (u16d buf (pos + 16) = 0 → s.elite = 0) ∧
      (u16d buf (pos + 18) = 0 → s.aquaticElite = 0)) := by
  refine ⟨?_, ?_, ?_⟩
  · intro buf m m2 aq hagree hprof
    exact decodeBuffer_congr_nonrev hagree hprof
  · intro buf m aq e hprof h
    have hcases := decodeBuffer_error_nonrev hprof h
    constructor
    · intro c hc
      rcases hcases with he | he | he | he | ⟨c0, he⟩ <;> rw [hc] at he <;>
        exact CodecFailure.noConfusion he
    · intro c hc
      rcases hcases with he | he | he | he | ⟨c0, he⟩ <;> rw [hc] at he
      · exact absurd (CodecFailure.buildError.inj he).1 (by decide)
      · exact absurd (CodecFailure.buildError.inj he).1 (by decide)
      · exact absurd (CodecFailure.buildError.inj he).1 (by decide)
      · exact CodecFailure.noConfusion he
      · exact ⟨c0, (CodecFailure.buildError.inj he).2⟩
  · intro buf pos p m s h
    obtain ⟨v0, v1, v2, v3, v4, v5, v6, v7, v8, v9, h0, h1, h2, h3, h4, h5,
      h6, h7, h8, h9, hs⟩ := decodeSkills_ok_inv h
    subst hs
    refine ⟨fun hz => ?_, fun hz => ?_, fun hz => ?_, fun hz => ?_,
      fun hz => ?_, fun hz => ?_, fun hz => ?_, fun hz => ?_,
      fun hz => ?_, fun hz => ?_⟩
    · rw [hz] at h0; exact resolveSlot_ok_zero_inv h0
    · rw [hz] at h1; exact resolveSlot_ok_zero_inv h1
    · rw [hz] at h2; exact resolveSlot_ok_zero_inv h2
    · rw [hz] at h3; exact resolveSlot_ok_zero_inv h3
    · rw [hz] at h4; exact resolveSlot_ok_zero_inv h4
    · rw [hz] at h5; exact resolveSlot_ok_zero_inv h5
    · rw [hz] at h6; exact resolveSlot_ok_zero_inv h6
    · rw [hz] at h7; exact resolveSlot_ok_zero_inv h7
    · rw [hz] at h8; exact resolveSlot_ok_zero_inv h8
    · rw [hz] at h9; exact resolveSlot_ok_zero_inv h9

/-- Closed instance of the amended C4, with each hypothesis discharged at a
concrete input. -/
theorem gw2_c4_witness :
    decodeBuffer (ε := Unit) c2Buf idMapper false =
      decodeBuffer c2Buf strictMapper false ∧
    (CodecFailure.buildError .INVALID_LENGTH none : CodecFailure Unit) ≠
      .uncaught () ∧
    zeroSkills.heal = 0 :=
  ⟨gw2_c4_palette_guard_amended.1 c2Buf idMapper strictMapper false
     (fun q i hi => by simp [idMapper, strictMapper, hi]) (by decide),
   (gw2_c4_palette_guard_amended.2.1 (List.replicate 43 0) idMapper false
     (.buildError .INVALID_LENGTH none) (by decide) (by decide)).1 (),
   (gw2_c4_palette_guard_amended.2.2 (List.replicate 44 0) 8 1 idMapper
     zeroSkills (by decide)).1 (by decide)⟩

/-- C3: trailer parsing.  For every successfully decoded buffer longer than
44 bytes, `weapons` is the weapon-count byte at 44 followed by that many
2-byte little-endian IDs and `skillVariants` is the variant-count byte
followed by that many 4-byte little-endian IDs, with a zero count making the
field absent; and every otherwise-valid buffer whose length matches its two
trailer count bytes (46 bytes or more) decodes successfully. -/
theorem gw2_c3_extended_trailer {ε : Type} :
    (∀ (buf : List Nat) (m : PaletteMapper ε) (aq : Bool) (b : BuildCode),
      decodeBuffer buf m aq = .ok b → 44 < buf.length →
      b.weapons = (if buf.getD 44 0 = 0 then none
        else some ((List.range (buf.getD 44 0)).map
          (fun k => u16d buf (45 + 2 * k)))) ∧
      b.skillVariants = (if buf.getD (45 + 2 * buf.getD 44 0) 0 = 0 then none
        else some ((List.range (buf.getD (45 + 2 * buf.getD 44 0) 0)).map
          (fun k => u32d buf (46 + 2 * buf.getD 44 0 + 4 * k))))) ∧
    (∀ (buf : List Nat) (m : PaletteMapper ε),
      buf.getD 0 0 = 13 → 1 ≤ buf.getD 1 0 → buf.getD 1 0 ≤ 9 →
      MapperTotal m →
      buf.length = 46 + 2 * buf.getD 44 0 +
        4 * buf.getD (45 + 2 * buf.getD 44 0) 0 →
      ∃ b, decodeBuffer buf m false = .ok b) := by
  constructor
  · intro buf m aq b hok h44
    obtain ⟨_, _, _, _, specs, sp, wv, hspecs, hsp, hwv, hb⟩ :=
      decodeBuffer_ok_parts hok
    rw [if_pos h44] at hwv
    obtain ⟨hw, hv⟩ := readExtended_ok_inv hwv
    rw [hb]
    exact ⟨hw, hv⟩
  · intro buf m h13 hp1 hp9 hm hL
    obtain ⟨specs, hspecs⟩ := readSpecs_ok_of (ε := ε) buf (by omega)
    obtain ⟨sp, hpd⟩ :=
      decodeProfessionData_ok_of buf (by omega) hm (buf.getD 1 0)
    obtain ⟨wv, hext⟩ := readExtended_ok_of (ε := ε) buf hL
    refine ⟨{ profession := buf.getD 1 0, specializations := specs,
              skills := sp.1, professionSpecific := sp.2,
              weapons := wv.1, skillVariants := wv.2 }, ?_⟩
    unfold decodeBuffer
    rw [if_neg (by omega)]
    simp only [byteAt_lt (show 0 < buf.length by omega),
      byteAt_lt (show 1 < buf.length by omega), ok_bind]
    rw [if_neg (not_not_intro h13), if_neg (by omega)]
    simp only [hspecs, ok_bind, show aquaticOffset false = 0 from rfl, hpd,
      if_pos (show 44 < buf.length by omega), hext]
    rfl

/-- Closed instance of C3 at `c3Buf`: the trailer yields weapons [7] and
skillVariants [99], and the decode succeeds. -/
theorem gw2_c3_witness :
    ((some [7] : Option (List Nat)) = (if c3Buf.getD 44 0 = 0 then none
        else some ((List.range (c3Buf.getD 44 0)).map
          (fun k => u16d c3Buf (45 + 2 * k)))) ∧
      (some [99] : Option (List Nat)) =
        (if c3Buf.getD (45 + 2 * c3Buf.getD 44 0) 0 = 0 then none
        else some ((List.range (c3Buf.getD (45 + 2 * c3Buf.getD 44 0) 0)).map
          (fun k => u32d c3Buf (46 + 2 * c3Buf.getD 44 0 + 4 * k))))) ∧
    ∃ b, decodeBuffer c3Buf idMapper false = .ok b :=
  ⟨gw2_c3_extended_trailer.1 c3Buf idMapper false
      { profession := 1, specializations := [], skills := zeroSkills,
        professionSpecific := none, weapons := some [7],
        skillVariants := some [99] } (by decide) (by decide),
   gw2_c3_extended_trailer.2 c3Buf idMapper (by decide) (by decide)
     (by decide) (fun p i => ⟨i, rfl⟩) (by decide)⟩

end GW2
